import Mathlib

/-!
Verification development for the ACE (AMP CODEC Engine) toolkit.

The definitions below are a shallow embedding of the Python sources:
`ace/ari.py` (ARI value model), `ace/ari_cbor.py` (CBOR codec),
`ace/ari_text` (text codec), `ace/nickname.py` (nickname converter),
`ace/adm_set.py` (ADM catalog lookups) and `ace/constraints` (checker).

Modelling conventions:
* Python `bytes` values are `List Nat` with every element `< 256`.
* Python `int` is `Int` (arbitrary precision, as in Python).
* Python text strings are Lean `String`; the CBOR byte serialization of
  text is modelled for the ASCII subset (one byte per character), which
  covers every identifier and literal the toolkit handles in its tests.
* Python floats are outside the modelled value domain.
* Fallible code returns `Except Err`; each Python exception kind is a
  constructor of `Err`.
-/

namespace ACE

/-- Python exception kinds surfaced by the modelled code. -/
inductive Err where
  | eof
  | notModelled (msg : String)
  | parseError (msg : String)
  | valueError (msg : String)
  | typeError (msg : String)
  | structError (msg : String)
  | keyError (msg : String)
  | attrError (msg : String)
  | indexError (msg : String)
  | runtimeError (msg : String)
  | notImplemented
  deriving DecidableEq, Repr

/-- `ace.ari.StructType`: the enumeration of ADM data types. -/
inductive StructType where
  | MDAT | CONST | CTRL | EDD | LIT | MAC | OPER | RPTT | SBR | TBLT
  | TBR | VAR | BOOL | BYTE | STR | INT | UINT | VAST | UVAST
  | REAL32 | REAL64 | UNK | TV | TS | TNVC | ARI | AC | EXPR | BSTR
  deriving DecidableEq, Repr

namespace StructType

/-- The integer value of each `StructType` member (from `ace/ari.py`). -/
def toInt : StructType → Int
  | .MDAT => -1
  | .CONST => 0
  | .CTRL => 1
  | .EDD => 2
  | .LIT => 3
  | .MAC => 4
  | .OPER => 5
  | .RPTT => 7
  | .SBR => 8
  | .TBLT => 10
  | .TBR => 11
  | .VAR => 12
  | .BOOL => 16
  | .BYTE => 17
  | .STR => 18
  | .INT => 19
  | .UINT => 20
  | .VAST => 21
  | .UVAST => 22
  | .REAL32 => 23
  | .REAL64 => 24
  | .UNK => -25
  | .TV => 32
  | .TS => 33
  | .TNVC => 35
  | .ARI => 36
  | .AC => 37
  | .EXPR => 38
  | .BSTR => 39

/-- `StructType(value)`: look a member up by integer value. -/
def ofInt? : Int → Option StructType
  | -1 => some .MDAT
  | 0 => some .CONST
  | 1 => some .CTRL
  | 2 => some .EDD
  | 3 => some .LIT
  | 4 => some .MAC
  | 5 => some .OPER
  | 7 => some .RPTT
  | 8 => some .SBR
  | 10 => some .TBLT
  | 11 => some .TBR
  | 12 => some .VAR
  | 16 => some .BOOL
  | 17 => some .BYTE
  | 18 => some .STR
  | 19 => some .INT
  | 20 => some .UINT
  | 21 => some .VAST
  | 22 => some .UVAST
  | 23 => some .REAL32
  | 24 => some .REAL64
  | -25 => some .UNK
  | 32 => some .TV
  | 33 => some .TS
  | 35 => some .TNVC
  | 36 => some .ARI
  | 37 => some .AC
  | 38 => some .EXPR
  | 39 => some .BSTR
  | _ => none

/-- The member name string, as used by the lexer and `StructType[name]`. -/
def memberName : StructType → String
  | .MDAT => "MDAT"
  | .CONST => "CONST"
  | .CTRL => "CTRL"
  | .EDD => "EDD"
  | .LIT => "LIT"
  | .MAC => "MAC"
  | .OPER => "OPER"
  | .RPTT => "RPTT"
  | .SBR => "SBR"
  | .TBLT => "TBLT"
  | .TBR => "TBR"
  | .VAR => "VAR"
  | .BOOL => "BOOL"
  | .BYTE => "BYTE"
  | .STR => "STR"
  | .INT => "INT"
  | .UINT => "UINT"
  | .VAST => "VAST"
  | .UVAST => "UVAST"
  | .REAL32 => "REAL32"
  | .REAL64 => "REAL64"
  | .UNK => "UNK"
  | .TV => "TV"
  | .TS => "TS"
  | .TNVC => "TNVC"
  | .ARI => "ARI"
  | .AC => "AC"
  | .EXPR => "EXPR"
  | .BSTR => "BSTR"

/-- All members, in Python declaration order (regex alternation order). -/
def members : List StructType :=
  [.MDAT, .CONST, .CTRL, .EDD, .LIT, .MAC, .OPER, .RPTT, .SBR, .TBLT,
   .TBR, .VAR, .BOOL, .BYTE, .STR, .INT, .UINT, .VAST, .UVAST,
   .REAL32, .REAL64, .UNK, .TV, .TS, .TNVC, .ARI, .AC, .EXPR, .BSTR]

end StructType

/-- `ace.ari.LITERAL_TYPES`. -/
def LITERAL_TYPES : List StructType :=
  [.BOOL, .BYTE, .INT, .UINT, .VAST, .UVAST, .REAL32, .REAL64, .UNK,
   .STR, .BSTR, .TV, .TS]

/-- `ace.ari.LITERAL_LABEL_TYPES`. -/
def LITERAL_LABEL_TYPES : List StructType :=
  [.BYTE, .INT, .UINT, .VAST, .UVAST, .REAL32, .REAL64, .UNK, .TV, .TS]

/-- Integer types with entries in `ace.ari.NUMERIC_LIMITS` (the two REAL
entries hold floats and are outside the modelled value domain). -/
def NUMERIC_LIMITS : StructType → Option (Int × Int)
  | .BYTE => some (0, 2 ^ 8 - 1)
  | .INT => some (-(2 ^ 31), 2 ^ 31 - 1)
  | .UINT => some (0, 2 ^ 32 - 1)
  | .VAST => some (-(2 ^ 63), 2 ^ 63 - 1)
  | .UVAST => some (0, 2 ^ 64 - 1)
  | .UNK => some (0, 0)
  | .TV => some (0, 2 ^ 64 - 1)
  | .TS => some (0, 2 ^ 64 - 1)
  | _ => none

/-- Types with a `NUMERIC_LIMITS` entry in the source, including the two
REAL types (whose float bounds are not in the modelled domain). -/
def hasNumericLimit : StructType → Bool
  | .BYTE | .INT | .UINT | .VAST | .UVAST | .UNK | .TV | .TS => true
  | .REAL32 | .REAL64 => true
  | _ => false

/-! ## CBOR item codec (the `cbor2` library, modelled subset)

The toolkit delegates item-level CBOR to the external `cbor2` library.
The model below implements the RFC 8949 subset the toolkit exchanges:
unsigned/negative integers up to 64 bits, byte strings, ASCII text
strings, booleans and null.  Arrays, maps, tags, floats and bignums are
outside the modelled subset and decode/encode to `Err.notModelled`. -/

/-- A CBOR-encodable Python value (the modelled subset). -/
inductive Value where
  | vNull
  | vBool (b : Bool)
  | vInt (n : Int)
  | vStr (s : String)
  | vBytes (bs : List Nat)
  deriving DecidableEq, Repr

/-- Big-endian fixed-width byte serialization of a `Nat`. -/
def toBytesBE : Nat → Nat → List Nat
  | 0, _ => []
  | w + 1, n => toBytesBE w (n / 256) ++ [n % 256]

/-- Big-endian deserialization. -/
def fromBytesBE (bs : List Nat) : Nat :=
  bs.foldl (fun acc b => acc * 256 + b) 0

theorem length_toBytesBE (w n : Nat) : (toBytesBE w n).length = w := by
  induction w generalizing n with
  | zero => rfl
  | succ w ih => simp [toBytesBE, ih]

theorem fromBytesBE_append (bs cs : List Nat) :
    fromBytesBE (bs ++ cs) = cs.foldl (fun acc b => acc * 256 + b) (fromBytesBE bs) := by
  simp [fromBytesBE, List.foldl_append]

theorem fromBytesBE_toBytesBE (w n : Nat) (h : n < 256 ^ w) :
    fromBytesBE (toBytesBE w n) = n := by
  induction w generalizing n with
  | zero =>
      simp [toBytesBE, fromBytesBE]
      omega
  | succ w ih =>
      have hdiv : n / 256 < 256 ^ w := by
        have : n < 256 ^ w * 256 := by
          calc n < 256 ^ (w + 1) := h
          _ = 256 ^ w * 256 := by ring
        omega
      have h2 : fromBytesBE (toBytesBE w (n / 256)) = n / 256 := ih (n / 256) hdiv
      simp [toBytesBE, fromBytesBE_append]
      rw [h2]
      omega

/-- Read exactly `n` bytes from the front of a stream. -/
def readBytes (n : Nat) (bs : List Nat) : Except Err (List Nat × List Nat) :=
  if n ≤ bs.length then .ok (bs.take n, bs.drop n) else .error .eof

theorem readBytes_append (payload rest : List Nat) :
    readBytes payload.length (payload ++ rest) = .ok (payload, rest) := by
  simp [readBytes, List.take_left, List.drop_left]

/-- Encode a CBOR head: major type and argument, minimal length
(as the `cbor2` encoder produces for arguments below `2 ^ 64`). -/
def encodeHead (m n : Nat) : List Nat :=
  if n < 24 then [32 * m + n]
  else if n < 256 then [32 * m + 24, n]
  else if n < 65536 then (32 * m + 25) :: toBytesBE 2 n
  else if n < 4294967296 then (32 * m + 26) :: toBytesBE 4 n
  else (32 * m + 27) :: toBytesBE 8 n

/-- Decode a CBOR head into `(major, argument, rest)`. -/
def decodeHead : List Nat → Except Err (Nat × Nat × List Nat)
  | [] => .error .eof
  | b :: r =>
    let major := b / 32
    let info := b % 32
    if info < 24 then .ok (major, info, r)
    else if info = 24 then
      match r with
      | [] => .error .eof
      | x :: r' => .ok (major, x, r')
    else if info = 25 then do
      let (p, r') ← readBytes 2 r
      .ok (major, fromBytesBE p, r')
    else if info = 26 then do
      let (p, r') ← readBytes 4 r
      .ok (major, fromBytesBE p, r')
    else if info = 27 then do
      let (p, r') ← readBytes 8 r
      .ok (major, fromBytesBE p, r')
    else .error (.notModelled "indefinite or reserved head")

theorem decodeHead_encodeHead (m n : Nat) (rest : List Nat)
    (hm : m < 8) (hn : n < 2 ^ 64) :
    decodeHead (encodeHead m n ++ rest) = .ok (m, n, rest) := by
  unfold encodeHead
  split
  · next h =>
      have e1 : (32 * m + n) % 32 = n := by omega
      have e2 : (32 * m + n) / 32 = m := by omega
      simp [decodeHead, e1, e2, h]
  · split
    · next h1 h2 =>
        have e1 : (32 * m + 24) % 32 = 24 := by omega
        have e2 : (32 * m + 24) / 32 = m := by omega
        simp [decodeHead, e1, e2]
    · split
      · next h1 h2 h3 =>
          have e1 : (32 * m + 25) % 32 = 25 := by omega
          have e2 : (32 * m + 25) / 32 = m := by omega
          have hr := readBytes_append (toBytesBE 2 n) rest
          rw [length_toBytesBE 2 n] at hr
          simp [decodeHead, e1, e2, hr, Bind.bind, Except.bind, fromBytesBE_toBytesBE 2 n (by omega)]
      · split
        · next h1 h2 h3 h4 =>
            have e1 : (32 * m + 26) % 32 = 26 := by omega
            have e2 : (32 * m + 26) / 32 = m := by omega
            have hr := readBytes_append (toBytesBE 4 n) rest
            rw [length_toBytesBE 4 n] at hr
            simp [decodeHead, e1, e2, hr, Bind.bind, Except.bind, fromBytesBE_toBytesBE 4 n (by omega)]
        · next h1 h2 h3 h4 =>
            have e1 : (32 * m + 27) % 32 = 27 := by omega
            have e2 : (32 * m + 27) / 32 = m := by omega
            have hr := readBytes_append (toBytesBE 8 n) rest
            rw [length_toBytesBE 8 n] at hr
            simp [decodeHead, e1, e2, hr, Bind.bind, Except.bind, fromBytesBE_toBytesBE 8 n (by omega)]

/-- Whether a Lean `String` is pure ASCII; the CBOR text model covers
exactly this subset (one byte per character). -/
def asciiOnly (s : String) : Bool :=
  s.data.all (fun c => c.toNat < 128)

/-- UTF-8 bytes of an ASCII string (one byte per character). -/
def asciiBytes (s : String) : List Nat :=
  s.data.map Char.toNat

/-- Rebuild a string from ASCII bytes. -/
def stringOfAscii (bs : List Nat) : String :=
  ⟨bs.map Char.ofNat⟩

theorem stringOfAscii_asciiBytes (s : String) :
    stringOfAscii (asciiBytes s) = s := by
  cases s with
  | mk data =>
      simp [stringOfAscii, asciiBytes, Function.comp_def, Char.ofNat_toNat]

/-- `cbor2` encoding of one value (`cbor2.CBOREncoder.encode`,
modelled subset). -/
def cborEncodeValue : Value → Except Err (List Nat)
  | .vNull => .ok [0xF6]
  | .vBool b => .ok [if b then 0xF5 else 0xF4]
  | .vInt n =>
    if 0 ≤ n then
      if n < 2 ^ 64 then .ok (encodeHead 0 n.toNat)
      else .error (.notModelled "bignum tag")
    else
      if -(2 ^ 64 : Int) ≤ n then .ok (encodeHead 1 (-1 - n).toNat)
      else .error (.notModelled "bignum tag")
  | .vStr s =>
    if asciiOnly s ∧ (asciiBytes s).length < 2 ^ 64 then
      .ok (encodeHead 3 (asciiBytes s).length ++ asciiBytes s)
    else .error (.notModelled "non-ASCII text")
  | .vBytes bs =>
    if bs.all (· < 256) ∧ bs.length < 2 ^ 64 then
      .ok (encodeHead 2 bs.length ++ bs)
    else .error (.notModelled "not a byte sequence")

/-- `cbor2` decoding of one value (`cbor2.CBORDecoder.decode`, modelled
subset), returning the value and the unread remainder. -/
def cborDecodeValue (bs : List Nat) : Except Err (Value × List Nat) :=
  match bs with
  | [] => .error .eof
  | b :: _ =>
    if b = 0xF4 then .ok (.vBool false, bs.tail)
    else if b = 0xF5 then .ok (.vBool true, bs.tail)
    else if b = 0xF6 then .ok (.vNull, bs.tail)
    else if b / 32 = 7 then .error (.notModelled "float or simple value")
    else do
      let (major, arg, r) ← decodeHead bs
      match major with
      | 0 => .ok (.vInt arg, r)
      | 1 => .ok (.vInt (-1 - (arg : Int)), r)
      | 2 => do
        let (p, r') ← readBytes arg r
        .ok (.vBytes p, r')
      | 3 => do
        let (p, r') ← readBytes arg r
        if p.all (fun c => c < 128) then .ok (.vStr (stringOfAscii p), r')
        else .error (.notModelled "non-ASCII text")
      | _ => .error (.notModelled "array, map or tag")

theorem head_encodeHead_div32 (m n : Nat) (hm : m < 8) (hn : n < 2 ^ 64) :
    ∃ b r, encodeHead m n = b :: r ∧ b / 32 = m := by
  unfold encodeHead
  split
  · exact ⟨32 * m + n, [], rfl, by omega⟩
  · split
    · exact ⟨32 * m + 24, [n], rfl, by omega⟩
    · split
      · exact ⟨32 * m + 25, toBytesBE 2 n, rfl, by omega⟩
      · split
        · exact ⟨32 * m + 26, toBytesBE 4 n, rfl, by omega⟩
        · exact ⟨32 * m + 27, toBytesBE 8 n, rfl, by omega⟩

/-- Every accepted `cbor2` encoding decodes back to the same value, with
any trailing bytes untouched. -/
theorem cborDecodeValue_encodeValue (v : Value) (out rest : List Nat)
    (h : cborEncodeValue v = .ok out) :
    cborDecodeValue (out ++ rest) = .ok (v, rest) := by
  cases v with
  | vNull =>
      simp [cborEncodeValue] at h
      subst h
      simp [cborDecodeValue]
  | vBool b =>
      cases b with
      | false =>
          simp [cborEncodeValue] at h
          subst h
          simp [cborDecodeValue]
      | true =>
          simp [cborEncodeValue] at h
          subst h
          simp [cborDecodeValue]
  | vInt n =>
      simp only [cborEncodeValue] at h
      split at h
      · next hpos =>
          split at h
          · next hn =>
              simp only [Except.ok.injEq] at h
              subst h
              obtain ⟨b, r, hbr, hb⟩ := head_encodeHead_div32 0 n.toNat
                (by omega) (by omega)
              have hd := decodeHead_encodeHead 0 n.toNat rest (by omega)
                (by omega)
              have hb4 : ¬(b = 0xF4) := by omega
              have hb5 : ¬(b = 0xF5) := by omega
              have hb6 : ¬(b = 0xF6) := by omega
              have hb7 : ¬(b / 32 = 7) := by omega
              rw [hbr] at hd ⊢
              simp [cborDecodeValue, hb4, hb5, hb6, hb7]
              rw [List.cons_append] at hd
              simp [hd, Bind.bind, Except.bind]
              omega
          · exact absurd h (by simp)
      · next hpos =>
          split at h
          · next hlow =>
              simp only [Except.ok.injEq] at h
              subst h
              obtain ⟨b, r, hbr, hb⟩ := head_encodeHead_div32 1 (-1 - n).toNat
                (by omega) (by omega)
              have hd := decodeHead_encodeHead 1 (-1 - n).toNat rest (by omega)
                (by omega)
              have hb4 : ¬(b = 0xF4) := by omega
              have hb5 : ¬(b = 0xF5) := by omega
              have hb6 : ¬(b = 0xF6) := by omega
              have hb7 : ¬(b / 32 = 7) := by omega
              rw [hbr] at hd ⊢
              simp [cborDecodeValue, hb4, hb5, hb6, hb7]
              rw [List.cons_append] at hd
              simp [hd, Bind.bind, Except.bind]
              omega
          · exact absurd h (by simp)
  | vStr s =>
      rw [cborEncodeValue] at h
      split at h
      · next hguard =>
          obtain ⟨hascii, hlen⟩ := hguard
          simp at h
          subst h
          obtain ⟨b, r, hbr, hb⟩ := head_encodeHead_div32 3
            (asciiBytes s).length (by omega) hlen
          have hd := decodeHead_encodeHead 3 (asciiBytes s).length
            (asciiBytes s ++ rest) (by omega) hlen
          have hb4 : ¬(b = 0xF4) := by omega
          have hb5 : ¬(b = 0xF5) := by omega
          have hb6 : ¬(b = 0xF6) := by omega
          have hb7 : ¬(b / 32 = 7) := by omega
          rw [List.append_assoc]
          rw [hbr] at hd ⊢
          simp [cborDecodeValue, hb4, hb5, hb6, hb7]
          rw [List.cons_append] at hd
          simp [hd, Bind.bind, Except.bind, readBytes_append,
            stringOfAscii_asciiBytes]
          intro x hx
          simp [asciiBytes] at hx
          obtain ⟨c, hc, rfl⟩ := hx
          simp [asciiOnly, List.all_eq_true] at hascii
          exact hascii c hc
      · exact absurd h (by simp)
  | vBytes bs =>
      rw [cborEncodeValue] at h
      split at h
      · next hguard =>
          obtain ⟨hbytes, hlen⟩ := hguard
          simp at h
          subst h
          obtain ⟨b, r, hbr, hb⟩ := head_encodeHead_div32 2 bs.length
            (by omega) hlen
          have hd := decodeHead_encodeHead 2 bs.length (bs ++ rest)
            (by omega) hlen
          have hb4 : ¬(b = 0xF4) := by omega
          have hb5 : ¬(b = 0xF5) := by omega
          have hb6 : ¬(b = 0xF6) := by omega
          have hb7 : ¬(b / 32 = 7) := by omega
          rw [List.append_assoc]
          rw [hbr] at hd ⊢
          simp [cborDecodeValue, hb4, hb5, hb6, hb7]
          rw [List.cons_append] at hd
          simp [hd, Bind.bind, Except.bind, readBytes_append]
      · exact absurd h (by simp)

/-! ## ARI value model (`ace/ari.py`)

`Identity.namespace` and `Identity.name` are dynamically typed in the
source (`Union[str, int, None]` resp. `Union[bytes, str]`); both are
modelled as `Value`. -/

/-- `ace.ari.Identity` (the field `namespace` is a Lean keyword, so it is
spelled `nspace` here). -/
structure Identity where
  nspace : Option Value := none
  type_enum : StructType
  name : Value
  issuer : Option (List Nat) := none
  tag : Option (List Nat) := none
  deriving DecidableEq, Repr

/-- The ARI tree: `LiteralARI`, `ReferenceARI`, `AC`, `EXPR` and `TNVC`
from `ace/ari.py`, collapsed into one sum as the dynamically typed
encoder receives them. -/
inductive Obj where
  | lit (type_enum : StructType) (value : Value)
  | ref (ident : Identity) (params : Option (List Obj))
  | ac (items : List Obj)
  | expr (type_enum : StructType) (items : List Obj)
  | tnvc (items : List Obj)

/-- `ace.util.is_printable`: non-empty, first byte an ASCII letter and
every byte in `string.printable`. -/
def isPrintable (bs : List Nat) : Bool :=
  match bs with
  | [] => false
  | b :: _ =>
    ((65 ≤ b && b ≤ 90) || (97 ≤ b && b ≤ 122)) &&
      bs.all (fun c => (32 ≤ c && c ≤ 126) || c = 9 || c = 10 ||
        c = 13 || c = 11 || c = 12)

/-- Python `str()` of a namespace or name value (only text and integers
occur in the toolkit's data). -/
def pyStr : Value → String
  | .vStr s => s
  | .vInt n => toString n
  | .vBool b => if b then "True" else "False"
  | .vNull => "None"
  | .vBytes _ => ""

/-- `struct.pack('!B', n)`: one unsigned byte, failing outside 0..255. -/
def packB (n : Int) : Except Err (List Nat) :=
  if 0 ≤ n ∧ n < 256 then .ok [n.toNat]
  else .error (.structError "ubyte format requires 0 <= number <= 255")

/-- Effectful map over a list for `Except`. -/
def exceptMapM (f : α → Except Err β) : List α → Except Err (List β)
  | [] => .ok []
  | x :: xs => do
    let y ← f x
    let ys ← exceptMapM f xs
    .ok (y :: ys)

/-- The one-byte TNVC type marker of a parameter
(`Encoder._encode_tnvc`, first loop). -/
def typeByte (o : Obj) : Except Err (List Nat) :=
  match o with
  | .ref _ _ => packB StructType.ARI.toInt
  | .ac _ => packB StructType.AC.toInt
  | .expr _ _ => packB StructType.EXPR.toInt
  | .tnvc _ => packB StructType.TNVC.toInt
  | .lit t _ => packB t.toInt

/-! ### `ace.ari_cbor.Encoder` -/

mutual

/-- `Encoder._encode_obj`. -/
def encodeObj : Obj → Bool → Except Err (List Nat)
  | .ref ident params, _ => encodeRefAri ident params
  | .ac items, _ => do
    -- FIXME workaround in the source: one-byte header 0x80 | count
    let hv := 128 ||| items.length
    if hv < 256 then do
      let body ← encodeRefList items
      .ok (hv :: body)
    else .error (.valueError "bytes must be in range(0, 256)")
  | .expr type_enum items, _ => do
    let tb ← cborEncodeValue (.vInt type_enum.toInt)
    let hv := 128 ||| items.length
    if hv < 256 then do
      let body ← encodeRefList items
      .ok (tb ++ hv :: body)
    else .error (.valueError "bytes must be in range(0, 256)")
  | .tnvc items, _ => encodeTnvc items
  | .lit type_enum value, asAri =>
    if type_enum = .BSTR then cborEncodeValue value
    else do
      let vb ← cborEncodeValue value
      if asAri then do
        let fb ← packB ((type_enum.toInt - StructType.BOOL.toInt) * 16 +
          StructType.LIT.toInt)
        .ok (fb ++ vb)
      else .ok vb

/-- `Encoder._encode_ref_ari`, with the `ReferenceARI` fields in hand;
any other object type fails the `obj.ident` attribute access. -/
def encodeRefAri (ident : Identity) (params : Option (List Obj)) :
    Except Err (List Nat) :=
  if ident.type_enum.toInt < 0 then
    -- a negative IntEnum value keeps struct.pack('!B', flags) negative
    .error (.structError "ubyte format requires 0 <= number <= 255")
  else do
    let flags := ident.type_enum.toInt.toNat
      ||| (if ident.nspace.isSome then 128 else 0)
      ||| (if params.isSome then 64 else 0)
      ||| (if ident.issuer.isSome then 32 else 0)
      ||| (if ident.tag.isSome then 16 else 0)
    let fb ← packB flags
    let nsb ← match ident.nspace with
      | some v => cborEncodeValue v
      | none => .ok []
    let nb ← match ident.name with
      | .vBytes bs => cborEncodeValue (.vBytes bs)
      | v => cborEncodeValue (.vBytes (asciiBytes (pyStr v)))
    let pb ← match params with
      | some ps => encodeTnvc ps
      | none => .ok []
    let ib ← match ident.issuer with
      | some b => cborEncodeValue (.vBytes b)
      | none => .ok []
    let tb ← match ident.tag with
      | some b => cborEncodeValue (.vBytes b)
      | none => .ok []
    .ok (fb ++ nsb ++ nb ++ pb ++ ib ++ tb)

/-- The per-item loop of AC/EXPR encoding: every item goes through
`_encode_ref_ari`. -/
def encodeRefList : List Obj → Except Err (List Nat)
  | [] => .ok []
  | x :: xs =>
    match x with
    | .ref ident params => do
      let b ← encodeRefAri ident params
      let bsx ← encodeRefList xs
      .ok (b ++ bsx)
    | _ => .error (.attrError "object has no attribute ident")

/-- `Encoder._encode_tnvc`. -/
def encodeTnvc (params : List Obj) : Except Err (List Nat) := do
  let flags : Nat := if params.isEmpty then 0 else 5
  let cb ← if flags ≠ 0 then cborEncodeValue (.vInt params.length)
    else pure []
  let tb ← exceptMapM typeByte params
  let vb ← encodeValueList params
  .ok (flags :: cb ++ tb.flatten ++ vb)

/-- The per-item value loop of `_encode_tnvc`: each parameter is encoded
with `as_ari=False`. -/
def encodeValueList : List Obj → Except Err (List Nat)
  | [] => .ok []
  | x :: xs => do
    let b ← encodeObj x false
    let bsx ← encodeValueList xs
    .ok (b ++ bsx)

end

/-- `Encoder.encode`: the top-level entry writes the object as an ARI. -/
def encodeAriTop (o : Obj) : Except Err (List Nat) :=
  encodeObj o true

/-! ### `ace.ari_cbor.Decoder`

The decoder functions carry a fuel argument for termination; every
nested item strictly consumes input bytes, so any fuel of at least the
input length reproduces the Python recursion. -/

/-- Read `count` one-byte `StructType` markers (`Decoder._decode_tnvc`,
TYPE section). -/
def readTypeBytes : Nat → List Nat → Except Err (List StructType × List Nat)
  | 0, bs => .ok ([], bs)
  | n + 1, [] => .error .eof
  | n + 1, b :: r => do
    match StructType.ofInt? (b : Int) with
    | some t => do
      let (ts, r') ← readTypeBytes n r
      .ok (t :: ts, r')
    | none => .error (.valueError "not a valid StructType")

mutual

/-- `Decoder._decode_ari`. -/
def decodeAri : Nat → List Nat → Except Err (Obj × List Nat)
  | 0, _ => .error (.notModelled "recursion fuel exhausted")
  | _ + 1, [] => .error .eof
  | fuel + 1, flags :: r =>
    match StructType.ofInt? ((flags % 16 : Nat) : Int) with
    | none => .error (.valueError "not a valid StructType")
    | some st =>
      if st = .LIT then
        match cborDecodeValue r with
        | .error e => .error e
        | .ok (v, r1) =>
          match StructType.ofInt? ((flags / 16 : Nat) + StructType.BOOL.toInt) with
          | none => .error (.valueError "not a valid StructType")
          | some t => .ok (.lit t v, r1)
      else
        match decodeRefParts fuel flags r with
        | .error e => .error e
        | .ok ((nn, name, params, issuer, tagv), r5) =>
          .ok (.ref ⟨nn, st, name, issuer, tagv⟩ params, r5)

/-- The reference branch of `Decoder._decode_ari`: the optional
nickname, the name, the optional parameter TNVC, issuer and tag. -/
def decodeRefParts : Nat → Nat → List Nat →
    Except Err ((Option Value × Value × Option (List Obj) ×
      Option (List Nat) × Option (List Nat)) × List Nat)
  | 0, _, _ => .error (.notModelled "recursion fuel exhausted")
  | fuel + 1, flags, r => do
  let (nn, r1) ←
    if flags &&& 128 ≠ 0 then do
      let (v, r1) ← cborDecodeValue r
      (.ok (some v, r1) : Except Err (Option Value × List Nat))
    else .ok (none, r)
  let (nv, r2) ← cborDecodeValue r1
  let name ← match nv with
    | .vBytes bsn =>
      (.ok (if isPrintable bsn then Value.vStr (stringOfAscii bsn)
        else .vBytes bsn) : Except Err Value)
    | .vStr s => .ok (.vStr s)
    | _ => .error (.valueError "Decoded name is not bytes or str")
  let (params, r3) ←
    if flags &&& 64 ≠ 0 then do
      let (l, r3) ← decodeTnvc fuel r2
      (.ok (some l, r3) : Except Err (Option (List Obj) × List Nat))
    else .ok (none, r2)
  let (issuer, r4) ←
    if flags &&& 32 ≠ 0 then do
      let (v, r4) ← cborDecodeValue r3
      match v with
      | .vBytes b => (.ok (some b, r4) :
          Except Err (Option (List Nat) × List Nat))
      | _ => .error (.valueError "Decoded issuer is not bytes")
    else .ok (none, r3)
  let (tagv, r5) ←
    if flags &&& 16 ≠ 0 then do
      let (v, r5) ← cborDecodeValue r4
      match v with
      | .vBytes b => (.ok (some b, r5) :
          Except Err (Option (List Nat) × List Nat))
      | _ => .error (.valueError "Decoded tag is not bytes")
    else .ok (none, r4)
  .ok ((nn, name, params, issuer, tagv), r5)

/-- `Decoder._decode_tnvc`. -/
def decodeTnvc : Nat → List Nat → Except Err (List Obj × List Nat)
  | 0, _ => .error (.notModelled "recursion fuel exhausted")
  | _ + 1, [] => .error .eof
  | fuel + 1, flags :: r => do
    let (count, r1) ←
      if flags ≠ 0 then do
        let (v, r1) ← cborDecodeValue r
        match v with
        | .vInt n => (.ok (n.toNat, r1) : Except Err (Nat × List Nat))
        | _ => .error (.typeError "count is not an integer")
      else .ok (0, r)
    let (types, r2) ←
      if flags &&& 4 ≠ 0 then readTypeBytes count r1
      else .ok ([], r1)
    if flags &&& 2 ≠ 0 then .error .notImplemented
    else do
      let (values, r3) ←
        if flags &&& 1 ≠ 0 then decodeTypedValues fuel count types r2
        else .ok ([], r2)
      .ok (values, r3)

/-- The VALUE loop of `_decode_tnvc`: item `idx` uses `type_enums[idx]`,
an out-of-range index being Python `IndexError`. -/
def decodeTypedValues : Nat → Nat → List StructType → List Nat →
    Except Err (List Obj × List Nat)
  | 0, _, _, _ => .error (.notModelled "recursion fuel exhausted")
  | _ + 1, 0, _, bs => .ok ([], bs)
  | _ + 1, _ + 1, [], _ => .error (.indexError "list index out of range")
  | fuel + 1, n + 1, t :: ts, bs => do
    let (o, r) ← decodeObjTyped fuel t bs
    let (os, r') ← decodeTypedValues fuel n ts r
    .ok (o :: os, r')

/-- `Decoder._decode_ac_items`. -/
def decodeAcItems : Nat → List Nat → Except Err (List Obj × List Nat)
  | 0, _ => .error (.notModelled "recursion fuel exhausted")
  | _ + 1, [] => .error .eof
  | fuel + 1, b :: r => decodeAriList fuel (b % 32) r

/-- The item loop of `_decode_ac_items`. -/
def decodeAriList : Nat → Nat → List Nat → Except Err (List Obj × List Nat)
  | 0, _, _ => .error (.notModelled "recursion fuel exhausted")
  | _ + 1, 0, bs => .ok ([], bs)
  | fuel + 1, n + 1, bs => do
    let (o, r) ← decodeAri fuel bs
    let (os, r') ← decodeAriList fuel n r
    .ok (o :: os, r')

/-- `Decoder._decode_obj`. -/
def decodeObjTyped : Nat → StructType → List Nat →
    Except Err (Obj × List Nat)
  | 0, _, _ => .error (.notModelled "recursion fuel exhausted")
  | fuel + 1, type_enum, bs =>
    if type_enum = .ARI then decodeAri fuel bs
    else if type_enum = .AC then do
      let (items, r) ← decodeAcItems fuel bs
      .ok (.ac items, r)
    else if type_enum = .EXPR then do
      let (tv, r) ← cborDecodeValue bs
      match tv with
      | .vInt n =>
        match StructType.ofInt? n with
        | some t => do
          let (items, r') ← decodeAcItems fuel r
          .ok (.expr t items, r')
        | none => .error (.valueError "not a valid StructType")
      | _ => .error (.valueError "not a valid StructType")
    else if type_enum = .TNVC then do
      -- the source rebuilds a text-level AC here, not a TNVC
      let (items, r) ← decodeTnvc fuel bs
      .ok (.ac items, r)
    else if type_enum ∈ LITERAL_TYPES then do
      let (v, r) ← cborDecodeValue bs
      .ok (.lit type_enum v, r)
    else .error (.valueError "Unhandled param object type")

end

/-- `Decoder.decode`: decode one ARI from a byte string (the source only
warns when trailing bytes remain). -/
def decodeAriTop (bs : List Nat) : Except Err Obj :=
  (decodeAri (bs.length + 1) bs).map (·.1)

/-! ## Text codec (`ace/ari_text`)

The lexer model reproduces the PLY rules of `lexmod.py`: rules are
tried in declaration order at each position (function rules first, then
the `NAME` rule, then the one-character rules), matching is
case-insensitive (`reflags=re.IGNORECASE`), and an unmatched character
is skipped (`t_error`). -/

/-- The token set of `lexmod.py` (`ARI_PREFIX` is spelled `ariScheme`).
`FLOAT` tokens keep their raw text: float values are outside the
modelled domain. -/
inductive Token where
  | ariScheme
  | slash
  | comma
  | lparen
  | rparen
  | lsqrb
  | rsqrb
  | typename (t : StructType)
  | typedot (t : StructType)
  | tbool (b : Bool)
  | tint (n : Int)
  | tfloat (raw : String)
  | name (s : String)
  | tstr (s : String)
  | bstr (bs : List Nat)
  deriving DecidableEq, Repr

/-- Case-insensitive character comparison (`re.IGNORECASE`). -/
def ciEq (a b : Char) : Bool :=
  a.toLower = b.toLower

/-- Case-insensitively match a literal pattern as a prefix. -/
def ciIsPrefix : List Char → List Char → Bool
  | [], _ => true
  | _ :: _, [] => false
  | p :: ps, c :: cs => ciEq p c && ciIsPrefix ps cs

def isAsciiDigit (c : Char) : Bool :=
  '0' ≤ c && c ≤ '9'

def isAsciiAlphaCh (c : Char) : Bool :=
  ('a' ≤ c && c ≤ 'z') || ('A' ≤ c && c ≤ 'Z')

/-- Length of the leading digit run. -/
def countDigits : List Char → Nat
  | [] => 0
  | c :: cs => if isAsciiDigit c then countDigits cs + 1 else 0

/-- Match `[eE][+-]?\d+` as a prefix, returning its length. -/
def expLen (cs : List Char) : Option Nat :=
  match cs with
  | c :: cs1 =>
    if c = 'e' ∨ c = 'E' then
      let (sl, cs2) := match cs1 with
        | d :: ds => if d = '+' ∨ d = '-' then (1, ds) else (0, cs1)
        | [] => (0, cs1)
      let dn := countDigits cs2
      if dn > 0 then some (1 + sl + dn) else none
    else none
  | [] => none

/-- Prefix match of the `t_FLOAT` rule
`[+-]?((\d+|\d*\.\d*)([eE][+-]?\d+)|\d*\.\d*|Infinity)|NaN`,
returning the matched length. -/
def matchFloatLen (cs : List Char) : Option Nat :=
  if ciIsPrefix "NaN".data cs then some 3
  else
    let (sl, cs1) := match cs with
      | c :: rest => if c = '+' ∨ c = '-' then (1, rest) else (0, cs)
      | [] => (0, cs)
    if ciIsPrefix "Infinity".data cs1 then some (sl + 8)
    else
      let d1 := countDigits cs1
      let cs2 := cs1.drop d1
      match cs2 with
      | '.' :: cs3 =>
        let d2 := countDigits cs3
        let cs4 := cs3.drop d2
        let mlen := sl + d1 + 1 + d2
        match expLen cs4 with
        | some e => some (mlen + e)
        | none => some mlen
      | _ =>
        if d1 > 0 then
          match expLen cs2 with
          | some e => some (sl + d1 + e)
          | none => none
        else none

/-- Length of the leading run of hex digits. -/
def countHexDigits : List Char → Nat
  | [] => 0
  | c :: cs =>
    if isAsciiDigit c || ('a' ≤ c && c ≤ 'f') || ('A' ≤ c && c ≤ 'F') then
      countHexDigits cs + 1
    else 0

/-- Length of the leading run of binary digits. -/
def countBinDigits : List Char → Nat
  | [] => 0
  | c :: cs => if c = '0' ∨ c = '1' then countBinDigits cs + 1 else 0

/-- Digit value of one hex character. -/
def hexVal (c : Char) : Nat :=
  if isAsciiDigit c then c.toNat - 48
  else if 'a' ≤ c && c ≤ 'f' then c.toNat - 87
  else if 'A' ≤ c && c ≤ 'F' then c.toNat - 55
  else 0

/-- Prefix match of the `t_INT` rule
`[+-]?(0b[01]+|0x[0-9a-fA-F]+|\d+)` together with the Python
`int(text, 0)` value; `int(text, 0)` raises `ValueError` on a nonzero
decimal with leading zeros. -/
def matchIntTok (cs : List Char) : Option (Except Err Int × Nat) :=
  let (sgn, sl, cs1) : Int × Nat × List Char := match cs with
    | '+' :: rest => (1, 1, rest)
    | '-' :: rest => (-1, 1, rest)
    | _ => (1, 0, cs)
  match cs1 with
  | '0' :: b :: rest =>
    if b = 'b' ∨ b = 'B' then
      let n := countBinDigits rest
      if n > 0 then
        some (.ok (sgn * ((rest.take n).foldl
          (fun a c => a * 2 + (c.toNat - 48)) (0 : Nat) : Int)), sl + 2 + n)
      else
        -- `0b` with no digits: fall back to the `\d+` branch matching "0"
        some (.ok 0, sl + 1)
    else if b = 'x' ∨ b = 'X' then
      let n := countHexDigits rest
      if n > 0 then
        some (.ok (sgn * ((rest.take n).foldl
          (fun a c => a * 16 + hexVal c) (0 : Nat) : Int)), sl + 2 + n)
      else some (.ok 0, sl + 1)
    else
      let n := countDigits cs1
      if (cs1.take n).all (· = '0') then some (.ok 0, sl + n)
      else some (.error (.valueError "invalid literal for int with base 0"),
        sl + n)
  | _ =>
    let n := countDigits cs1
    if n > 0 then
      some (.ok (sgn * ((cs1.take n).foldl
        (fun a c => a * 10 + (c.toNat - 48)) (0 : Nat) : Int)), sl + n)
    else none

/-- Hex-decode the contents of an `h'..'` byte string
(`base64.b16decode(..., casefold=True)`). -/
def hexDecode : List Char → Except Err (List Nat)
  | [] => .ok []
  | [_] => .error (.valueError "odd-length hex string")
  | a :: b :: rest =>
    if (isAsciiDigit a || ('a' ≤ a && a ≤ 'f') || ('A' ≤ a && a ≤ 'F')) &&
       (isAsciiDigit b || ('a' ≤ b && b ≤ 'f') || ('A' ≤ b && b ≤ 'F')) then do
      let tl ← hexDecode rest
      .ok ((hexVal a * 16 + hexVal b) :: tl)
    else .error (.valueError "non-hex digit")

/-- Scan the contents of a quoted section up to `quote`, returning the
contents and the remainder past the closing quote; `none` when the
closing quote is missing (the token rule then fails to match). -/
def scanQuoted (quote : Char) : List Char → Option (List Char × List Char)
  | [] => none
  | c :: cs =>
    if c = quote then some ([], cs)
    else match scanQuoted quote cs with
      | some (inner, rest) => some (c :: inner, rest)
      | none => none

/-- First `StructType` member whose name matches case-insensitively at
the head of the input and is followed by `next` (regex alternation in
declaration order with backtracking on the following character). -/
def matchTypeName (next : Char) (cs : List Char) : Option (StructType × List Char) :=
  StructType.members.foldr
    (fun m acc =>
      match acc with
      | some r => some r
      | none =>
        if ciIsPrefix m.memberName.data cs then
          match cs.drop m.memberName.length with
          | c :: rest => if c = next then some (m, rest) else none
          | [] => none
        else none)
    none

/-- One step of the PLY master scanner: produce the next token (or
`none` for skipped input) and the count of characters consumed. -/
def scanOne (cs : List Char) : Except Err (Option Token × Nat) :=
  match cs with
  | [] => .ok (none, 1)
  | c :: rest =>
    if c = ' ' ∨ c = '\t' ∨ c = '\n' then .ok (none, 1)
    else if ciIsPrefix "ari:".data cs then .ok (some .ariScheme, 4)
    else if c = '(' then
      match matchTypeName ')' rest with
      | some (t, _) => .ok (some (.typename t), t.memberName.length + 2)
      | none => .ok (some .lparen, 1)
    else match matchTypeName '.' cs with
    | some (t, _) => .ok (some (.typedot t), t.memberName.length + 1)
    | none =>
      if ciIsPrefix "true".data cs then
        .ok (some (.tbool (cs.take 4 = "true".data)), 4)
      else if ciIsPrefix "false".data cs then
        .ok (some (.tbool false), 5)
      else match matchFloatLen cs with
      | some n => .ok (some (.tfloat ⟨cs.take n⟩), n)
      | none => match matchIntTok cs with
        | some (.ok v, n) => .ok (some (.tint v), n)
        | some (.error e, _) => .error e
        | none =>
          if c = '"' then
            match scanQuoted '"' rest with
            | some (inner, _) => .ok (some (.tstr ⟨inner⟩), inner.length + 2)
            | none => .ok (none, 1)
          else if (ciEq c 'h' ∨ ciEq c 'b') then
            -- BSTR with an encoding tag: h | b32 | h32 | b64
            match rest with
            | '\'' :: r2 =>
              if ciEq c 'h' then
                match scanQuoted '\'' r2 with
                | some (inner, _) => do
                  let bs ← hexDecode inner
                  .ok (some (.bstr bs), inner.length + 3)
                | none => scanNameOrSkip cs
              else scanNameOrSkip cs
            | d1 :: d2 :: '\'' :: r2 =>
              -- the whole quoted token must match before the token
              -- function body runs
              if (scanQuoted '\'' r2).isSome then
                if (ciEq c 'b' ∧ d1 = '3' ∧ d2 = '2') then
                  .error (.notModelled "base32 byte string")
                else if (ciEq c 'h' ∧ d1 = '3' ∧ d2 = '2') then
                  .error .notImplemented
                else if (ciEq c 'b' ∧ d1 = '6' ∧ d2 = '4') then
                  .error (.notModelled "base64 byte string")
                else scanNameOrSkip cs
              else scanNameOrSkip cs
            | _ => scanNameOrSkip cs
          else if c = '\'' then
            match scanQuoted '\'' rest with
            | some (inner, _) =>
              if inner.all (fun ch => ch.toNat < 128) then
                .ok (some (.bstr (inner.map Char.toNat)), inner.length + 2)
              else .error (.valueError "non-ASCII byte string")
            | none => .ok (none, 1)
          else scanNameOrSkip cs
  where
    /-- The `NAME` rule, the one-character rules, then `t_error`. -/
    scanNameOrSkip (cs : List Char) : Except Err (Option Token × Nat) :=
      match cs with
      | [] => .ok (none, 1)
      | c :: rest =>
        let isNameTail (ch : Char) : Bool :=
          ¬(ch = '/' ∨ ch = '(' ∨ ch = ')' ∨ ch = '[' ∨ ch = ']' ∨
            ch = ',' ∨ ch = ' ' ∨ ch = '\t' ∨ ch = '\n' ∨ ch = '\r' ∨
            ch = '\x0b' ∨ ch = '\x0c')
        if isAsciiAlphaCh c then
          let tail := rest.takeWhile isNameTail
          if tail.length > 0 then
            .ok (some (.name ⟨c :: tail⟩), tail.length + 1)
          else singleCharTok c
        else singleCharTok c
    /-- The one-character string rules of `lexmod.py`. -/
    singleCharTok (c : Char) : Except Err (Option Token × Nat) :=
      if c = '/' then .ok (some .slash, 1)
      else if c = ',' then .ok (some .comma, 1)
      else if c = '(' then .ok (some .lparen, 1)
      else if c = ')' then .ok (some .rparen, 1)
      else if c = '[' then .ok (some .lsqrb, 1)
      else if c = ']' then .ok (some .rsqrb, 1)
      else .ok (none, 1)

/-- The scanner loop (fuelled; each step consumes at least one
character). -/
def tokenizeLoop : Nat → List Char → Except Err (List Token)
  | 0, _ => .error (.notModelled "scanner fuel exhausted")
  | _ + 1, [] => .ok []
  | fuel + 1, cs => do
    let (tok, k) ← scanOne cs
    let rest := cs.drop (max k 1)
    let toks ← tokenizeLoop fuel rest
    match tok with
    | some t => .ok (t :: toks)
    | none => .ok toks

/-- Tokenize an input string. -/
def tokenize (s : String) : Except Err (List Token) :=
  tokenizeLoop (s.data.length + 1) s.data

/-! ### `LiteralARI.check_type` and the parser of `parsemod.py` -/

/-- Python `value in (False, True)`, which uses `==` (so the integers
0 and 1 also pass). -/
def pyEqTrueFalse : Value → Bool
  | .vBool _ => true
  | .vInt n => n = 0 || n = 1
  | _ => false

/-- `ace.ari.LiteralARI.check_type`. -/
def checkType (t : StructType) (v : Value) : Except Err Unit :=
  if t = .BOOL then
    if pyEqTrueFalse v then .ok ()
    else .error (.valueError "Literal boolean type without boolean value")
  else if hasNumericLimit t then
    match v with
    | .vInt n =>
      match NUMERIC_LIMITS t with
      | some (lo, hi) =>
        if n < lo ∨ n > hi then
          .error (.valueError "Literal integer vaue outside of valid range")
        else .ok ()
      | none => .error (.notModelled "float range limit")
    | .vBool b =>
      -- bool is an int in Python: True is 1, False is 0
      match NUMERIC_LIMITS t with
      | some (lo, hi) =>
        if (if b then (1 : Int) else 0) < lo ∨ (if b then (1 : Int) else 0) > hi then
          .error (.valueError "Literal integer vaue outside of valid range")
        else .ok ()
      | none => .error (.notModelled "float range limit")
    | _ => .error (.typeError "must be a real number, not str or bytes")
  else if t = .STR then
    match v with
    | .vStr _ => .ok ()
    | _ => .error (.valueError "Literal text string with non-text value")
  else if t = .BSTR then
    match v with
    | .vBytes _ => .ok ()
    | _ => .error (.valueError "Literal byte string with non-bytes value")
  else .ok ()

/-- `p_error`: yacc syntax errors are raised as `RuntimeError`. -/
def synErr {α : Type} : Except Err α :=
  .error (.runtimeError "Syntax error in input")

/-- `p_litvalue_*`: a bare literal value with its default type. -/
def parseLitvalue : List Token → Except Err (Obj × List Token)
  | .tbool b :: r => .ok (.lit .BOOL (.vBool b), r)
  | .tint n :: r => .ok (.lit .VAST (.vInt n), r)
  | .tfloat _ :: _ => .error (.notModelled "float literal")
  | .tstr s :: r => .ok (.lit .STR (.vStr s), r)
  | .bstr bs :: r => .ok (.lit .BSTR (.vBytes bs), r)
  | _ => synErr

/-- `p_literal_without_type` and `p_literal_with_type` (the latter
validates with `check_type` and re-raises failures as
`RuntimeError`). -/
def parseLiteral (ts : List Token) : Except Err (Obj × List Token) :=
  match ts with
  | .typedot t :: r => do
    let (lv, r2) ← parseLitvalue r
    match lv with
    | .lit _ v =>
      match checkType t v with
      | .ok _ => .ok (.lit t v, r2)
      | .error _ => .error (.runtimeError "Literal type mismatch")
    | _ => synErr
  | _ => parseLitvalue ts

/-- `p_objid_bstr` / `p_objid_name`. -/
def parseObjid : List Token → Except Err (Value × List Token)
  | .bstr bs :: r =>
    .ok (if isPrintable bs then Value.vStr (stringOfAscii bs)
      else Value.vBytes bs, r)
  | .name s :: r => .ok (.vStr s, r)
  | _ => synErr

/-- `p_ident_with_ns`, `p_ident_empty_ns`, `p_ident_without_ns` and
`p_nsid_int` / `p_nsid_name`. -/
def parseIdent : List Token → Except Err (Identity × List Token)
  | .slash :: .slash :: .typedot t :: r => do
    let (oid, r2) ← parseObjid r
    .ok (⟨none, t, oid, none, none⟩, r2)
  | .slash :: .typedot t :: r => do
    let (oid, r2) ← parseObjid r
    .ok (⟨none, t, oid, none, none⟩, r2)
  | .slash :: .tint n :: .slash :: .typedot t :: r => do
    let (oid, r2) ← parseObjid r
    .ok (⟨some (.vInt n), t, oid, none, none⟩, r2)
  | .slash :: .name s :: .slash :: .typedot t :: r => do
    let (oid, r2) ← parseObjid r
    .ok (⟨some (.vStr s), t, oid, none, none⟩, r2)
  | _ => synErr

mutual

/-- `p_ari_explicit` / `p_ari_literal`. -/
def parseAri : Nat → List Token → Except Err (Obj × List Token)
  | 0, _ => .error (.notModelled "recursion fuel exhausted")
  | fuel + 1, ts =>
    match ts with
    | .ariScheme :: rest => parseSsp fuel rest
    | _ => parseLiteral ts

/-- `p_ssp_literal`, `p_ssp_without_params`, `p_ssp_empty_params`,
`p_ssp_with_params`. -/
def parseSsp : Nat → List Token → Except Err (Obj × List Token)
  | 0, _ => .error (.notModelled "recursion fuel exhausted")
  | fuel + 1, ts =>
    match ts with
    | .slash :: _ => do
      let (id, r) ← parseIdent ts
      match r with
      | .lparen :: .rparen :: r2 => .ok (.ref id (some []), r2)
      | .lparen :: r2 => do
        let (ps, r3) ← parseParamList fuel r2
        match r3 with
        | .rparen :: r4 => .ok (.ref id (some ps), r4)
        | _ => synErr
      | _ => .ok (.ref id none, r)
    | _ => parseLiteral ts

/-- `p_paramlist_join` / `p_paramlist_end`. -/
def parseParamList : Nat → List Token → Except Err (List Obj × List Token)
  | 0, _ => .error (.notModelled "recursion fuel exhausted")
  | fuel + 1, ts => do
    let (p, r) ← parseParamItem fuel ts
    parseParamListRest fuel [p] r

def parseParamListRest : Nat → List Obj → List Token →
    Except Err (List Obj × List Token)
  | 0, _, _ => .error (.notModelled "recursion fuel exhausted")
  | fuel + 1, acc, ts =>
    match ts with
    | .comma :: r => do
      let (p, r2) ← parseParamItem fuel r
      parseParamListRest fuel (acc ++ [p]) r2
    | _ => .ok (acc, ts)

/-- `p_paramitem_*`. -/
def parseParamItem : Nat → List Token → Except Err (Obj × List Token)
  | 0, _ => .error (.notModelled "recursion fuel exhausted")
  | fuel + 1, ts =>
    match ts with
    | .lsqrb :: .rsqrb :: r => .ok (.ac [], r)
    | .lsqrb :: r => do
      let (items, r2) ← parseAclist fuel r
      match r2 with
      | .rsqrb :: r3 => .ok (.ac items, r3)
      | _ => synErr
    | .typename t :: .lsqrb :: r => do
      let (items, r2) ← parseAclist fuel r
      match r2 with
      | .rsqrb :: r3 => .ok (.expr t items, r3)
      | _ => synErr
    | .typename _ :: _ => synErr
    | _ => parseAri fuel ts

/-- `p_aclist_join` / `p_aclist_end`. -/
def parseAclist : Nat → List Token → Except Err (List Obj × List Token)
  | 0, _ => .error (.notModelled "recursion fuel exhausted")
  | fuel + 1, ts => do
    let (a, r) ← parseAri fuel ts
    parseAclistRest fuel [a] r

def parseAclistRest : Nat → List Obj → List Token →
    Except Err (List Obj × List Token)
  | 0, _, _ => .error (.notModelled "recursion fuel exhausted")
  | fuel + 1, acc, ts =>
    match ts with
    | .comma :: r => do
      let (a, r2) ← parseAri fuel r
      parseAclistRest fuel (acc ++ [a]) r2
    | _ => .ok (acc, ts)

end

/-- Run the parser on a whole token stream (yacc then expects EOF). -/
def parseTop (toks : List Token) : Except Err Obj := do
  let (o, r) ← parseAri (4 * toks.length + 4) toks
  match r with
  | [] => .ok o
  | _ => synErr

/-- `ari_text.Decoder.decode`: lex, parse, and re-raise any
`RuntimeError` as `ParseError` (lexer exceptions propagate raw). -/
def textDecode (s : String) : Except Err Obj :=
  match tokenize s with
  | .error e => .error e
  | .ok toks =>
    match parseTop toks with
    | .ok o => .ok o
    | .error (.runtimeError m) => .error (.parseError m)
    | .error e => .error e

/-! ### `ari_text.Encoder` -/

/-- Python truthiness of the modelled values. -/
def valueTruthy : Value → Bool
  | .vNull => false
  | .vBool b => b
  | .vInt n => n ≠ 0
  | .vStr s => s ≠ ""
  | .vBytes bs => bs ≠ []

def hexDigitLower (n : Nat) : Char :=
  if n < 10 then Char.ofNat (48 + n) else Char.ofNat (87 + n)

/-- `bytes.hex()`: two lowercase digits per byte. -/
def hexLower (bs : List Nat) : String :=
  ⟨bs.flatMap (fun b => [hexDigitLower (b / 16 % 16), hexDigitLower (b % 16)])⟩

/-- `ace.cborutil.to_diag` on the modelled value domain. -/
def toDiag : Value → String
  | .vNull => "null"
  | .vBool b => if b then "true" else "false"
  | .vInt n => toString n
  | .vStr s => "\"" ++ s ++ "\""
  | .vBytes bs => "h" ++ String.mk ['\''] ++ hexLower bs ++ String.mk ['\'']

/-- The `ari:`-prefixed namespace and name portion a `ReferenceARI`
prints before its optional parameter list. -/
def refBase (ident : Identity) : String :=
  "ari:" ++
  (match ident.nspace with
   | some ns => if valueTruthy ns then "/" ++ pyStr ns else ""
   | none => "") ++
  (if valueTruthy ident.name then
    "/" ++ ident.type_enum.memberName ++ "." ++
      (match ident.name with
       | .vBytes bs => toDiag (.vBytes bs)
       | v => pyStr v)
   else "")

mutual

/-- `ari_text.Encoder.encode` (a `TNVC` value hits the trailing
`TypeError` branch of the source). -/
def textEncode : Obj → Except Err String
  | .ac items => do
    let body ← textEncodeList items
    .ok ("[" ++ body ++ "]")
  | .expr t items => do
    let body ← textEncodeList items
    .ok ("(" ++ t.memberName ++ ")[" ++ body ++ "]")
  | .lit t v =>
    .ok ((if t ∈ LITERAL_LABEL_TYPES then t.memberName ++ "." else "") ++
      toDiag v)
  | .ref ident params => do
    let ps ← match params with
      | none => pure ""
      | some l => do
        let body ← textEncodeList l
        pure ("(" ++ body ++ ")")
    .ok (refBase ident ++ ps)
  | .tnvc _ => .error (.typeError "Unhandled object type")

/-- `Encoder._encode_list` with separator `,`. -/
def textEncodeList : List Obj → Except Err String
  | [] => .ok ""
  | [x] => textEncode x
  | x :: xs => do
    let hd ← textEncode x
    let tl ← textEncodeList xs
    .ok (hd ++ "," ++ tl)

end

/-! ## ADM catalog lookups (`ace/adm_set.py`) and nickname conversion
(`ace/nickname.py`)

The relational catalog is modelled as a list of ADM records, each
holding its child objects per ORM kind.  `query.one_or_none()` returns
the single match, `None` for no match, and raises for several
matches. -/

/-- The kinds with an entry in `nickname.ORM_TYPE` (note: no SBR or
TBR rows exist in the ORM). -/
inductive OrmKind where
  | kMdat | kConst | kCtrl | kEdd | kMac | kOper | kRptt | kTblt | kVar
  deriving DecidableEq, Repr

/-- An `AdmObjMixin` child row: normalized name, optional enumeration,
and the parmspec type names for parameterized kinds. -/
structure AdmChild where
  norm_name : String
  enum : Option Int := none
  parmspec : Option (List String) := none
  deriving DecidableEq, Repr

/-- An `AdmFile` row with its child collections. -/
structure Adm where
  norm_name : String := ""
  norm_namespace : String := ""
  enum : Option Int := none
  mdat : List AdmChild := []
  const : List AdmChild := []
  ctrl : List AdmChild := []
  edd : List AdmChild := []
  mac : List AdmChild := []
  oper : List AdmChild := []
  rptt : List AdmChild := []
  tblt : List AdmChild := []
  var : List AdmChild := []
  deriving DecidableEq, Repr

def Adm.children (a : Adm) : OrmKind → List AdmChild
  | .kMdat => a.mdat
  | .kConst => a.const
  | .kCtrl => a.ctrl
  | .kEdd => a.edd
  | .kMac => a.mac
  | .kOper => a.oper
  | .kRptt => a.rptt
  | .kTblt => a.tblt
  | .kVar => a.var

/-- Python `str.split(sep)` for a one-character separator, on the
character list. -/
def splitChar (sep : Char) : List Char → List (List Char)
  | [] => [[]]
  | c :: rest =>
    let r := splitChar sep rest
    if c = sep then [] :: r
    else match r with
      | h :: t => (c :: h) :: t
      | [] => [[c]]

/-- Python `str.split(sep)`. -/
def pySplit (sep : Char) (s : String) : List String :=
  (splitChar sep s.data).map String.mk

/-- Python `str.casefold()` (ASCII lowering; identical on the
identifiers this toolkit handles). -/
def pyCasefold (s : String) : String :=
  ⟨s.data.map Char.toLower⟩

/-- `AdmSet.get_by_norm_name`: case-folds the name, raises `KeyError`
when absent (and the underlying `one_or_none` raises on duplicates). -/
def getByNormName (adms : List Adm) (name : String) : Except Err Adm :=
  match adms.filter (fun a => a.norm_name = pyCasefold name) with
  | [a] => .ok a
  | [] => .error (.keyError "No ADM found with name")
  | _ => .error (.valueError "Multiple rows were found")

/-- `AdmSet.get_by_enum`. -/
def getByEnum (adms : List Adm) (enum : Int) : Except Err Adm :=
  match adms.filter (fun a => a.enum = some enum) with
  | [a] => .ok a
  | [] => .error (.keyError "No ADM found with enum")
  | _ => .error (.valueError "Multiple rows were found")

/-- `AdmSet.get_child`: filter the ADM's children of one kind by the
optional keys; `one_or_none` semantics.  The `norm_name` key is the
dynamically typed ARI name, and `casefold` on a non-string raises. -/
def getChild (adm : Adm) (kind : OrmKind) (normName : Option Value)
    (enum : Option Int) : Except Err (Option AdmChild) := do
  let byName ← match normName with
    | none => pure (adm.children kind)
    | some (.vStr s) =>
      pure ((adm.children kind).filter (fun c => c.norm_name = pyCasefold s))
    | some _ => .error (.attrError "object has no attribute casefold")
  let byEnum := match enum with
    | none => byName
    | some e => byName.filter (fun c => c.enum = some e)
  match byEnum with
  | [] => .ok none
  | [c] => .ok (some c)
  | _ => .error (.valueError "Multiple rows were found")

/-- `nickname.ORM_TYPE[...]` (raising `KeyError` off the table). -/
def ormType? (t : StructType) : Except Err OrmKind :=
  match t with
  | .MDAT => .ok .kMdat
  | .CONST => .ok .kConst
  | .CTRL => .ok .kCtrl
  | .EDD => .ok .kEdd
  | .MAC => .ok .kMac
  | .OPER => .ok .kOper
  | .RPTT => .ok .kRptt
  | .TBLT => .ok .kTblt
  | .VAR => .ok .kVar
  | _ => .error (.keyError "ORM_TYPE")

/-- `nickname.AdmObjType[name]` (Table 1 of draft-birrane-dtn-amp-08),
looked up by the `StructType` member name. -/
def admObjType? (t : StructType) : Except Err Int :=
  match t with
  | .CONST => .ok 0
  | .CTRL => .ok 1
  | .EDD => .ok 2
  | .MAC => .ok 3
  | .OPER => .ok 4
  | .RPTT => .ok 5
  | .SBR => .ok 6
  | .TBLT => .ok 7
  | .TBR => .ok 8
  | .VAR => .ok 9
  | .MDAT => .ok 10
  | _ => .error (.keyError "AdmObjType")

/-- `nickname.AdmObjType(value)` (`ValueError` off the range 0..10). -/
def admObjTypeOfInt? (n : Int) : Except Err Int :=
  if 0 ≤ n ∧ n ≤ 10 then .ok n
  else .error (.valueError "is not a valid AdmObjType")

/-- `nickname.Mode`. -/
inductive Mode where
  | TO_NN
  | FROM_NN
  deriving DecidableEq, Repr

/-- The parmspec-driven rewrap loop at the end of the `TO_NN` branch of
`Converter._convert_ari`: each parameter position whose declared type
is `TNVC` is replaced by `TNVC(items=ari.params[ix].items)`. -/
def rewrapLoop : List String → Nat → Option (List Obj) →
    Option (List Obj) × Option Err
  | [], _, ps => (ps, none)
  | spec :: rest, ix, ps =>
    if spec = "TNVC" then
      match ps with
      | none => (none, some (.typeError "NoneType object is not subscriptable"))
      | some l =>
        match l.get? ix with
        | none => (some l, some (.indexError "list index out of range"))
        | some item =>
          match item with
          | .ac its => rewrapLoop rest (ix + 1) (some (l.set ix (.tnvc its)))
          | .expr _ its =>
            rewrapLoop rest (ix + 1) (some (l.set ix (.tnvc its)))
          | .tnvc its => rewrapLoop rest (ix + 1) (some (l.set ix (.tnvc its)))
          | _ => (some l, some (.attrError "object has no attribute items"))
    else rewrapLoop rest (ix + 1) ps

/-- The `TO_NN` branch of `Converter._convert_ari`, entered when the
namespace is a text string.  Returns the (possibly partially) mutated
fields together with the raised exception, mirroring the in-place
mutation of the source. -/
def convertAriToNN (adms : List Adm) (must : Bool) (ident : Identity)
    (params : Option (List Obj)) (s : String) :
    Identity × Option (List Obj) × Option Err :=
  match (pySplit ':' s)[1]? with
  | none => (ident, params, some (.indexError "list index out of range"))
  | some admName =>
    match getByNormName adms admName with
    | .error e => (ident, params, some e)
    | .ok adm =>
      match admObjType? ident.type_enum with
      | .error e => (ident, params, some e)
      | .ok nnType =>
        match ormType? ident.type_enum with
        | .error e => (ident, params, some e)
        | .ok kind =>
          match getChild adm kind (some ident.name) none with
          | .error e => (ident, params, some e)
          | .ok objOpt =>
            match adm.enum with
            | none =>
              if must then
                (ident, params, some (.runtimeError
                  "The ADM does not have an enumeration"))
              else (ident, params, none)
            | some admEnum =>
              match objOpt with
              | none =>
                if must then
                  (ident, params, some (.runtimeError
                    "The ADM object does not exist"))
                else (ident, params, none)
              | some obj =>
                match obj.enum with
                | none =>
                  if must then
                    (ident, params, some (.runtimeError
                      "The ADM object does not have an enumeration"))
                  else (ident, params, none)
                | some objEnum =>
                  let ident1 := { ident with
                    nspace := some (.vInt (admEnum * 20 + nnType)) }
                  match cborEncodeValue (.vInt objEnum) with
                  | .error e => (ident1, params, some e)
                  | .ok nb =>
                    let ident2 := { ident1 with name := .vBytes nb }
                    match obj.parmspec with
                    | none => (ident2, params, none)
                    | some specs =>
                      let (ps2, e2) := rewrapLoop specs 0 params
                      (ident2, ps2, e2)

/-- `cbor2.loads(ari.ident.name)` with the check that the result is an
integer (`Converter._convert_ari`, FROM_NN branch). -/
def nnNameEnum : Value → Except Err Int
  | .vBytes bs =>
    match cborDecodeValue bs with
    | .ok (.vInt n, _) => .ok n
    | .ok _ => .error (.valueError "Object name is not an encoded integer")
    | .error e => .error e
  | _ => .error (.typeError "a bytes-like object is required")

/-- The `FROM_NN` branch of `Converter._convert_ari`, entered when the
namespace is an integer.  Python `//` and `%` are floor division and
nonnegative remainder. -/
def convertAriFromNN (adms : List Adm) (ident : Identity)
    (params : Option (List Obj)) (ns : Int) :
    Identity × Option (List Obj) × Option Err :=
  match admObjTypeOfInt? (Int.fmod ns 20) with
  | .error e => (ident, params, some e)
  | .ok _ =>
    -- a kind/type mismatch is only a logged warning
    match nnNameEnum ident.name with
    | .error e => (ident, params, some e)
    | .ok objEnum =>
      match getByEnum adms (Int.fdiv ns 20) with
      | .error e => (ident, params, some e)
      | .ok adm =>
        match ormType? ident.type_enum with
        | .error e => (ident, params, some e)
        | .ok kind =>
          match getChild adm kind none (some objEnum) with
          | .error e => (ident, params, some e)
          | .ok objOpt =>
            let ident1 := { ident with
              nspace := some (.vStr ("IANA:" ++ adm.norm_name)) }
            match objOpt with
            | none =>
              -- obj.norm_name on None raises after the namespace was set
              (ident1, params, some (.attrError
                "NoneType object has no attribute norm_name"))
            | some obj =>
              ({ ident1 with name := .vStr obj.norm_name }, params, none)

/-- `Converter._convert_ari`. -/
def convertAri (mode : Mode) (adms : List Adm) (must : Bool)
    (ident : Identity) (params : Option (List Obj)) :
    Identity × Option (List Obj) × Option Err :=
  match mode, ident.nspace with
  | .TO_NN, some (.vStr s) => convertAriToNN adms must ident params s
  | .FROM_NN, some (.vInt ns) => convertAriFromNN adms ident params ns
  | _, _ => (ident, params, none)

/-! The tree walk of `Converter.__call__` terminates because the
parmspec rewrap replaces parameters by same-weight `TNVC` wrappers. -/

mutual

def objWeight : Obj → Nat
  | .lit _ _ => 1
  | .ref _ none => 1
  | .ref _ (some l) => 2 + listWeight l
  | .ac l => 1 + listWeight l
  | .expr _ l => 1 + listWeight l
  | .tnvc l => 1 + listWeight l

def listWeight : List Obj → Nat
  | [] => 0
  | x :: xs => 1 + objWeight x + listWeight xs

end

def optWeight : Option (List Obj) → Nat
  | none => 0
  | some l => 1 + listWeight l

theorem objWeight_ref (id : Identity) (ps : Option (List Obj)) :
    objWeight (.ref id ps) = 1 + optWeight ps := by
  cases ps <;> simp [objWeight, optWeight]
  omega

theorem listWeight_set (l : List Obj) (ix : Nat) (item x : Obj)
    (hget : l[ix]? = some item) (hw : objWeight x = objWeight item) :
    listWeight (l.set ix x) = listWeight l := by
  induction l generalizing ix with
  | nil => simp at hget
  | cons y ys ih =>
      cases ix with
      | zero =>
          simp at hget
          subst hget
          simp [List.set, listWeight, hw]
      | succ ix =>
          simp at hget
          simp [List.set, listWeight, ih ix hget]

theorem rewrapLoop_weight (specs : List String) (ix : Nat)
    (ps : Option (List Obj)) :
    optWeight (rewrapLoop specs ix ps).1 = optWeight ps := by
  induction specs generalizing ix ps with
  | nil => simp [rewrapLoop]
  | cons spec rest ih =>
      by_cases hs : spec = "TNVC"
      · cases ps with
        | none => simp [rewrapLoop, hs]
        | some l =>
            cases hget : l[ix]? with
            | none => simp [rewrapLoop, hs, hget]
            | some item =>
                cases item with
                | ac its =>
                    have hw := listWeight_set l ix (.ac its) (.tnvc its) hget
                      (by simp [objWeight])
                    have h2 := ih (ix + 1) (some (l.set ix (.tnvc its)))
                    simp only [optWeight] at h2
                    simp [rewrapLoop, hs, hget, optWeight, h2, hw]
                | expr t its =>
                    have hw := listWeight_set l ix (.expr t its) (.tnvc its)
                      hget (by simp [objWeight])
                    have h2 := ih (ix + 1) (some (l.set ix (.tnvc its)))
                    simp only [optWeight] at h2
                    simp [rewrapLoop, hs, hget, optWeight, h2, hw]
                | tnvc its =>
                    have hw := listWeight_set l ix (.tnvc its) (.tnvc its) hget
                      (by simp [objWeight])
                    have h2 := ih (ix + 1) (some (l.set ix (.tnvc its)))
                    simp only [optWeight] at h2
                    simp [rewrapLoop, hs, hget, optWeight, h2, hw]
                | lit t v => simp [rewrapLoop, hs, hget]
                | ref i p => simp [rewrapLoop, hs, hget]
      · simp [rewrapLoop, hs, ih]

theorem convertAriToNN_weight (adms : List Adm) (must : Bool)
    (ident : Identity) (params : Option (List Obj)) (s : String) :
    optWeight (convertAriToNN adms must ident params s).2.1 =
      optWeight params := by
  unfold convertAriToNN
  split
  · rfl
  · split
    · rfl
    · split
      · rfl
      · split
        · rfl
        · split
          · rfl
          · split
            · split <;> rfl
            · split
              · split <;> rfl
              · split
                · split <;> rfl
                · split
                  · rfl
                  · split
                    · rfl
                    · simp [rewrapLoop_weight]

theorem convertAriFromNN_weight (adms : List Adm) (ident : Identity)
    (params : Option (List Obj)) (ns : Int) :
    optWeight (convertAriFromNN adms ident params ns).2.1 =
      optWeight params := by
  unfold convertAriFromNN
  split
  · rfl
  · split
    · rfl
    · split
      · rfl
      · split
        · rfl
        · split
          · rfl
          · split <;> rfl

theorem convertAri_weight (mode : Mode) (adms : List Adm) (must : Bool)
    (ident : Identity) (params : Option (List Obj)) :
    optWeight (convertAri mode adms must ident params).2.1 =
      optWeight params := by
  unfold convertAri
  split
  · exact convertAriToNN_weight ..
  · exact convertAriFromNN_weight ..
  · rfl

mutual

/-- `Converter.__call__`: convert one object in place, recursing into
parameters and collection items; an exception aborts the remaining
traversal with the tree mutated so far. -/
def convertObj (mode : Mode) (adms : List Adm) (must : Bool) :
    Obj → Obj × Option Err
  | .ref ident params =>
    match h : convertAri mode adms must ident params with
    | (id1, some l, none) =>
      if l.isEmpty then (.ref id1 (some l), none)
      else
        let r := convertList mode adms must l
        (.ref id1 (some r.1), r.2)
    | (id1, ps1, e) => (.ref id1 ps1, e)
  | .ac items =>
    let r := convertList mode adms must items
    (.ac r.1, r.2)
  | .expr t items =>
    let r := convertList mode adms must items
    (.expr t r.1, r.2)
  | .tnvc items =>
    let r := convertList mode adms must items
    (.tnvc r.1, r.2)
  | .lit t v => (.lit t v, none)
termination_by o => objWeight o
decreasing_by
  all_goals first
    | (simp [objWeight]; try omega
       done)
    | (rename_i ident params hne
       have hw := convertAri_weight mode adms must ident params
       rw [h] at hw
       simp [optWeight] at hw
       rw [objWeight_ref]
       simp [optWeight]
       omega)

def convertList (mode : Mode) (adms : List Adm) (must : Bool) :
    List Obj → List Obj × Option Err
  | [] => ([], none)
  | x :: xs =>
    match convertObj mode adms must x with
    | (x2, some e) => (x2 :: xs, some e)
    | (x2, none) =>
      let r := convertList mode adms must xs
      (x2 :: r.1, r.2)
termination_by l => listWeight l
decreasing_by
  all_goals simp [listWeight]
  all_goals omega

end

/-! ## Constraint checker (`ace/constraints`)

The ORM rows carry exactly the fields the basic constraints read. -/

/-- `models.Mdat` as read by `minimal_metadata`. -/
structure CMdat where
  name : String
  value : Option String := none
  deriving DecidableEq, Repr

/-- `models.Const` (nullable `type`). -/
structure CConst where
  name : String
  type : Option String := none
  deriving DecidableEq, Repr

/-- `models.Edd` (non-null `type`). -/
structure CEdd where
  name : String
  type : String
  deriving DecidableEq, Repr

/-- `models.Oper` with its `OperParm` types. -/
structure COper where
  name : String
  result_type : Option String := none
  in_type : List (Option String) := []
  deriving DecidableEq, Repr

/-- `models.Var` with the optional initializer `Expr` type. -/
structure CVar where
  name : String
  type : String
  initializer : Option (Option String) := none
  deriving DecidableEq, Repr

/-- `models.AdmFile` as read by the basic constraints. -/
structure CAdm where
  norm_name : String := ""
  mdat : List CMdat := []
  const : List CConst := []
  edd : List CEdd := []
  oper : List COper := []
  var : List CVar := []
  deriving DecidableEq, Repr

/-- `constraints.core.Issue`; `obj` is identified by its name here. -/
structure Issue where
  check_name : Option String := none
  adm_name : Option String := none
  objName : Option String := none
  detail : String := ""
  deriving DecidableEq, Repr

/-- `ari.StructType[name]`: Python enum name lookup is exact and
case-sensitive. -/
def structTypeByName? (s : String) : Option StructType :=
  StructType.members.find? (fun m => m.memberName = s)

/-- `valid_type_name._check_type`: `StructType[type_name]` raising
`KeyError` (also for a `None` type) appends one issue. -/
def checkOneTypeName (objName : String) (tn : Option String) : List Issue :=
  match tn with
  | some s =>
    if (structTypeByName? s).isSome then []
    else [{ objName := some objName,
            detail := "Within the object named " ++ objName ++
              " the type name " ++ s ++ " is not known" }]
  | none => [{ objName := some objName,
               detail := "Within the object named " ++ objName ++
                 " the type name None is not known" }]

/-- `constraints.basic.valid_type_name` applied to one `AdmFile`. -/
def valid_type_name (a : CAdm) : List Issue :=
  (a.const.map (fun c => checkOneTypeName c.name c.type)).flatten ++
  (a.edd.map (fun e => checkOneTypeName e.name (some e.type))).flatten ++
  (a.oper.map (fun o =>
    checkOneTypeName o.name o.result_type ++
      (o.in_type.map (fun t => checkOneTypeName o.name t)).flatten)).flatten ++
  (a.var.map (fun v =>
    checkOneTypeName v.name (some v.type) ++
      (match v.initializer with
       | some it => checkOneTypeName v.name it
       | none => []))).flatten

/-- `constraints.basic.minimal_metadata`: the body only runs when
`obj is None`, and the query `Mdat.admfile == obj` then matches no
persisted row (every `Mdat` row belongs to an `AdmFile`), so each of
the four required names yields one issue attached to `obj=None`.  For
an actual `AdmFile` the functor does nothing. -/
def minimal_metadata (obj : Option CAdm) : List Issue × Nat :=
  match obj with
  | some _ => ([], 0)
  | none =>
    ((["name", "namespace", "enum", "version"]).map
      (fun n => { objName := none,
                  detail := "ADM is missing required metadata " ++ n :
                  Issue }), 4)

/-- `Checker._add_result` attribution: fill in `check_name` and
`adm_name` where unset. -/
def addResult (cstName : String) (adm : Option CAdm) (l : List Issue) :
    List Issue :=
  l.map (fun i =>
    { i with
      check_name := match i.check_name with
        | none => some cstName
        | some c => some c,
      adm_name := match i.adm_name with
        | none => (adm.map (·.norm_name))
        | some a => some a })

/-- The `minimal_metadata` issues produced by `Checker.check` over a
catalog: the functor is not marked `is_global`, so the global loop
skips it and the per-ADM loop hands it each `AdmFile`. -/
def checkerMinimalMetadataIssues (adms : List CAdm) : List Issue :=
  (adms.map (fun adm =>
    addResult "ace.constraints.basic.minimal_metadata" (some adm)
      (minimal_metadata (some adm)).1)).flatten

/-- The `valid_type_name` issues produced by `Checker.check` over a
catalog (per-ADM loop). -/
def checkerValidTypeNameIssues (adms : List CAdm) : List Issue :=
  (adms.map (fun adm =>
    addResult "ace.constraints.basic.valid_type_name" (some adm)
      (valid_type_name adm))).flatten

/-- Whether an object is a `ReferenceARI`. -/
def isRefObj : Obj → Bool
  | .ref _ _ => true
  | _ => false

/-- The literal-value token carrying a given modelled value. -/
def valueToken : Value → Option Token
  | .vBool b => some (.tbool b)
  | .vInt n => some (.tint n)
  | .vStr s => some (.tstr s)
  | .vBytes bs => some (.bstr bs)
  | .vNull => none

/-- Whether a namespace value is in the target form of a conversion
mode: an integer nickname for `TO_NN`, a text string for `FROM_NN`. -/
def nsTarget : Mode → Option Value → Bool
  | .TO_NN, some (.vInt _) => true
  | .FROM_NN, some (.vStr _) => true
  | _, _ => false

mutual

/-- Every reference in the tree has a namespace already in the target
form of the given mode. -/
def targetForm (mode : Mode) : Obj → Bool
  | .lit _ _ => true
  | .ref ident params =>
    nsTarget mode ident.nspace &&
      (match params with
       | none => true
       | some l => targetFormList mode l)
  | .ac l => targetFormList mode l
  | .expr _ l => targetFormList mode l
  | .tnvc l => targetFormList mode l

/-- `targetForm` over a parameter or item list. -/
def targetFormList (mode : Mode) : List Obj → Bool
  | [] => true
  | x :: xs => targetForm mode x && targetFormList mode xs

end

theorem flattenMapNil {α : Type} (l : List α) (f : α → List Issue)
    (h : ∀ x ∈ l, f x = []) : (l.map f).flatten = [] := by
  simp only [List.flatten_eq_nil_iff, List.mem_map]
  rintro b ⟨x, hx, rfl⟩
  exact h x hx

/-! ## Theorems for the claims -/

/-- Claim C8 (code_bug evaluation): over any catalog — in particular
one whose single `AdmFile` lacks every required mdat entry — the
`Checker` produces no issue attributed to `minimal_metadata`: the
functor is invoked per-ADM with the `AdmFile` as `obj`, and its body is
guarded by `obj is None`. -/
theorem claim_C8_minimal_metadata_never_fires (adms : List CAdm) :
    checkerMinimalMetadataIssues adms = [] := by
  induction adms with
  | nil => rfl
  | cons a rest ih =>
      simpa [checkerMinimalMetadataIssues, minimal_metadata, addResult]
        using ih

/-- Claim C7 counterexample: a `Var` whose `type` string is the
lowercase `uint` — equal to the `StructType` member name `UINT` under
case-insensitive comparison — does receive a `valid_type_name` issue,
because `StructType[type_name]` is case-sensitive. -/
theorem claim_C7_counterexample :
    structTypeByName? "UINT" = some .UINT ∧
    ciIsPrefix "uint".data "UINT".data = true ∧
    valid_type_name
      { norm_name := "myadm", var := [{ name := "v1", type := "uint" }] } =
      [{ objName := some "v1",
         detail := "Within the object named v1 the type name uint is not known" }] := by
  refine ⟨rfl, by decide, rfl⟩

/-- Claim C7 (amended): `valid_type_name` accepts exactly the
case-sensitive `StructType` member names: an `AdmFile` all of whose
`type` strings (in Const, Edd, Oper and Var objects, including Oper
input types and Var initializers) are exact member names receives no
issue. -/
theorem claim_C7_valid_type_name_case_sensitive (a : CAdm)
    (hconst : ∀ c ∈ a.const,
      ∃ s, c.type = some s ∧ (structTypeByName? s).isSome)
    (hedd : ∀ e ∈ a.edd, (structTypeByName? e.type).isSome)
    (hoper : ∀ o ∈ a.oper,
      (∃ s, o.result_type = some s ∧ (structTypeByName? s).isSome) ∧
      ∀ t ∈ o.in_type, ∃ s, t = some s ∧ (structTypeByName? s).isSome)
    (hvar : ∀ v ∈ a.var, (structTypeByName? v.type).isSome ∧
      ∀ it, v.initializer = some it →
        ∃ s, it = some s ∧ (structTypeByName? s).isSome) :
    valid_type_name a = [] := by
  have hsome : ∀ nm s, (structTypeByName? s).isSome →
      checkOneTypeName nm (some s) = [] := by
    intro nm s hs
    simp [checkOneTypeName, hs]
  unfold valid_type_name
  rw [flattenMapNil _ _ (fun c hc => by
    obtain ⟨s, hcs, hs⟩ := hconst c hc
    rw [hcs]
    exact hsome c.name s hs)]
  rw [flattenMapNil _ _ (fun e he => hsome e.name e.type (hedd e he))]
  rw [flattenMapNil _ _ (fun o ho => by
    obtain ⟨⟨s, hos, hs⟩, hin⟩ := hoper o ho
    rw [hos]
    rw [hsome o.name s hs]
    rw [flattenMapNil _ _ (fun t ht => by
      obtain ⟨s2, rfl, hs2⟩ := hin t ht
      exact hsome o.name s2 hs2)]
    rfl)]
  rw [flattenMapNil _ _ (fun v hv => by
    obtain ⟨hvt, hvi⟩ := hvar v hv
    rw [hsome v.name v.type hvt]
    cases hii : v.initializer with
    | none => rfl
    | some it =>
        obtain ⟨s, rfl, hs⟩ := hvi it hii
        simp [hsome v.name s hs])]
  rfl

/-- Claim C7 witness: an ADM using the exact member name `UINT` gets no
issue. -/
theorem claim_C7_witness :
    valid_type_name
      { norm_name := "myadm", var := [{ name := "v1", type := "UINT" }] } = [] :=
  claim_C7_valid_type_name_case_sensitive _
    (by intro c hc; simp at hc)
    (by intro e he; simp at he)
    (by intro o ho; simp at ho)
    (by
      intro v hv
      simp at hv
      subst hv
      refine ⟨by decide, ?_⟩
      intro it hit
      simp at hit)

/-- Claim C4 (code_bug evaluation): a TO_NN conversion of a reference
whose ADM is absent from the catalog raises `KeyError` out of
`AdmSet.get_by_norm_name` in both `must_nickname` modes, instead of
leaving the reference unchanged without error (`must_nickname=False`)
or raising `RuntimeError` (`must_nickname=True`) as the dead
`adm is None` branches of `Converter._convert_ari` intend. -/
theorem claim_C4_missing_adm_raises_keyerror :
    (convertAri .TO_NN [] false
      ⟨some (.vStr "IANA:missing"), .CTRL, .vStr "anything", none, none⟩ none =
      (⟨some (.vStr "IANA:missing"), .CTRL, .vStr "anything", none, none⟩,
        none, some (.keyError "No ADM found with name"))) ∧
    (convertAri .TO_NN [] true
      ⟨some (.vStr "IANA:missing"), .CTRL, .vStr "anything", none, none⟩ none =
      (⟨some (.vStr "IANA:missing"), .CTRL, .vStr "anything", none, none⟩,
        none, some (.keyError "No ADM found with name"))) :=
  ⟨rfl, rfl⟩

theorem encodeRefList_ok_all_ref (items : List Obj) (bs : List Nat)
    (h : encodeRefList items = .ok bs) : ∀ x ∈ items, isRefObj x = true := by
  induction items generalizing bs with
  | nil => simp
  | cons x xs ih =>
      intro y hy
      cases x with
      | ref ident params =>
          rcases List.mem_cons.mp hy with rfl | hy'
          · rfl
          · rw [encodeRefList] at h
            cases h1 : encodeRefAri ident params with
            | error e => simp [h1, Bind.bind, Except.bind] at h
            | ok b =>
                cases h2 : encodeRefList xs with
                | error e => simp [h1, h2, Bind.bind, Except.bind] at h
                | ok bsx => exact ih _ h2 y hy'
      | lit t v =>
          rw [encodeRefList] at h
          exact absurd h (by simp)
          intro i p hcon
          exact Obj.noConfusion hcon
      | ac l =>
          rw [encodeRefList] at h
          exact absurd h (by simp)
          intro i p hcon
          exact Obj.noConfusion hcon
      | expr t l =>
          rw [encodeRefList] at h
          exact absurd h (by simp)
          intro i p hcon
          exact Obj.noConfusion hcon
      | tnvc l =>
          rw [encodeRefList] at h
          exact absurd h (by simp)
          intro i p hcon
          exact Obj.noConfusion hcon

/-- Claim C9: AC and EXPR items are dispatched to `_encode_ref_ari`, so
an AC or EXPR containing any non-`ReferenceARI` item fails to encode
(with an exception) in either encoding position. -/
theorem claim_C9_ac_expr_items_must_be_refs (items : List Obj)
    (asAri : Bool) (h : ∃ x ∈ items, isRefObj x = false) :
    (∃ e, encodeObj (.ac items) asAri = .error e) ∧
    (∀ t, ∃ e, encodeObj (.expr t items) asAri = .error e) := by
  have hlist : ∃ e, encodeRefList items = .error e := by
    cases hr : encodeRefList items with
    | error e => exact ⟨e, rfl⟩
    | ok bs =>
        obtain ⟨x, hx, hxf⟩ := h
        have := encodeRefList_ok_all_ref items bs hr x hx
        rw [this] at hxf
        exact absurd hxf (by simp)
  obtain ⟨e, he⟩ := hlist
  constructor
  · by_cases hg : (128 ||| items.length) < 256
    · exact ⟨e, by rw [encodeObj]; simp [hg, he, Bind.bind, Except.bind]⟩
    · exact ⟨.valueError "bytes must be in range(0, 256)",
        by rw [encodeObj]; simp [hg]⟩
  · intro t
    cases ht : cborEncodeValue (.vInt t.toInt) with
    | error e2 =>
        exact ⟨e2, by rw [encodeObj]; simp [ht, Bind.bind, Except.bind]⟩
    | ok tb =>
        by_cases hg : (128 ||| items.length) < 256
        · exact ⟨e, by
            rw [encodeObj]
            simp [ht, hg, he, Bind.bind, Except.bind]⟩
        · exact ⟨.valueError "bytes must be in range(0, 256)", by
            rw [encodeObj]
            simp [ht, hg, Bind.bind, Except.bind]⟩

/-- Claim C9 witness: an AC holding one literal fails to encode. -/
theorem claim_C9_witness :
    (∃ e, encodeObj (.ac [.lit .VAST (.vInt 1)]) true = .error e) ∧
    (∀ t, ∃ e, encodeObj (.expr t [.lit .VAST (.vInt 1)]) true = .error e) :=
  claim_C9_ac_expr_items_must_be_refs [.lit .VAST (.vInt 1)] true
    ⟨.lit .VAST (.vInt 1), by simp, rfl⟩

/-- Every decoded top-level literal has a type in the BOOL..REAL64 band
(the decoder computes it as `(flags >> 4) + BOOL`). -/
theorem decodeAri_ok_shape (fuel : Nat) (bs : List Nat) (o : Obj)
    (rest : List Nat) (hbytes : ∀ b ∈ bs, b < 256)
    (h : decodeAri fuel bs = .ok (o, rest)) :
    (isRefObj o = true) ∨
    (∃ t v, o = .lit t v ∧ 16 ≤ t.toInt ∧ t.toInt ≤ 24) := by
  have hband : ∀ k : Fin 16, ∀ t' : StructType,
      StructType.ofInt? ((k : Nat) + StructType.BOOL.toInt) =
        some t' → 16 ≤ t'.toInt ∧ t'.toInt ≤ 24 := by decide
  match fuel, bs with
  | 0, _ => rw [decodeAri] at h; exact absurd h (by simp)
  | _ + 1, [] => rw [decodeAri] at h; exact absurd h (by simp)
  | fuel + 1, flags :: r =>
    have hflags : flags < 256 := hbytes flags (by simp)
    have hhi : flags / 16 < 16 := by omega
    rw [decodeAri] at h
    split at h
    · exact absurd h (by simp)
    · split at h
      · -- literal branch
        split at h
        · exact absurd h (by simp)
        · split at h
          · exact absurd h (by simp)
          · rename_i t hti
            simp only [Except.ok.injEq, Prod.mk.injEq] at h
            exact Or.inr ⟨t, _, h.1.symm, hband ⟨flags / 16, hhi⟩ t hti⟩
      · -- reference branch
        split at h
        · exact absurd h (by simp)
        · simp only [Except.ok.injEq, Prod.mk.injEq] at h
          rw [← h.1]
          exact Or.inl rfl

/-- Claim C10: a top-level BSTR literal is encoded as the bare CBOR
byte string (no ARI flag octet), and no byte string decodes to a
top-level BSTR literal, so BSTR literals cannot round-trip. -/
theorem claim_C10_bstr_literal_no_framing :
    (∀ v : Value, encodeAriTop (.lit .BSTR v) = cborEncodeValue v) ∧
    (∀ (bs : List Nat), (∀ b ∈ bs, b < 256) →
      ∀ o, decodeAriTop bs = .ok o → ∀ v, o ≠ .lit .BSTR v) := by
  constructor
  · intro v
    rw [encodeAriTop, encodeObj]
    simp
  · intro bs hbytes o hdec v
    unfold decodeAriTop at hdec
    cases hd : decodeAri (bs.length + 1) bs with
    | error e => rw [hd] at hdec; exact absurd hdec (by simp [Except.map])
    | ok p =>
        obtain ⟨o2, rest⟩ := p
        rw [hd] at hdec
        simp [Except.map] at hdec
        subst hdec
        rcases decodeAri_ok_shape _ _ _ _ hbytes hd with href | ⟨t, v2, rfl, h1, h2⟩
        · cases o2 <;> simp_all [isRefObj]
        · intro hcontra
          have : t = .BSTR := by
            injection hcontra with h3 h4
          subst this
          simp [StructType.toInt] at h2

/-- Claim C10 witness: the concrete byte string `0x530A` decodes (to
the VAST literal 10), which is not a BSTR literal; and a concrete BSTR
literal encodes to its bare CBOR item. -/
theorem claim_C10_witness :
    encodeAriTop (.lit .BSTR (.vBytes [1, 2])) =
      cborEncodeValue (.vBytes [1, 2]) ∧
    ∀ v, Obj.lit .VAST (.vInt 10) ≠ .lit .BSTR v := by
  refine ⟨claim_C10_bstr_literal_no_framing.1 (.vBytes [1, 2]), ?_⟩
  exact claim_C10_bstr_literal_no_framing.2 [0x53, 0x0A] (by decide)
    (.lit .VAST (.vInt 10)) (by rfl)

theorem ofInt?_toInt (t : StructType) :
    StructType.ofInt? t.toInt = some t := by
  cases t <;> rfl

/-- Claim C1 counterexample: `TV` is a literal type other than `BSTR`,
but its flag computation `(TV - BOOL) << 4 | LIT` is 0x103, out of
range for `struct.pack('!B', ...)`, so CBOR encoding raises instead of
producing a flag octet. -/
theorem claim_C1_counterexample :
    StructType.TV ∈ LITERAL_TYPES ∧ StructType.TV ≠ .BSTR ∧
    encodeAriTop (.lit .TV (.vInt 0)) =
      .error (.structError "ubyte format requires 0 <= number <= 255") := by
  refine ⟨by decide, by decide, ?_⟩
  rw [encodeAriTop, encodeObj]
  norm_num [packB, StructType.toInt, cborEncodeValue, encodeHead,
    Bind.bind, Except.bind]
  exact fun hcon => absurd hcon (by decide)

/-- Claim C1 (amended): for literal types in the `BOOL`..`REAL64` band
(all literal types other than `BSTR` except `TV`, `TS` and `UNK`, whose
flag overflows the octet), the CBOR encoding is one flag octet with low
nibble `LIT` and high nibble `type_enum - BOOL`, followed by the bare
CBOR item of the value, and decoding returns the equal literal.  In
particular `VAST.10` parses from text to `LiteralARI(VAST, 10)`,
CBOR-encodes to `0x530A`, and those bytes decode back to the same
literal. -/
theorem claim_C1_literal_roundtrip :
    (∀ (t : StructType) (v : Value) (bs : List Nat),
      16 ≤ t.toInt → t.toInt ≤ 24 →
      cborEncodeValue v = .ok bs →
      ∃ flag, encodeAriTop (.lit t v) = .ok (flag :: bs) ∧
        flag % 16 = 3 ∧
        ((flag / 16 : Nat) : Int) = t.toInt - StructType.BOOL.toInt ∧
        decodeAriTop (flag :: bs) = .ok (.lit t v)) ∧
    textDecode "VAST.10" = .ok (.lit .VAST (.vInt 10)) ∧
    encodeAriTop (.lit .VAST (.vInt 10)) = .ok [0x53, 0x0A] ∧
    decodeAriTop [0x53, 0x0A] = .ok (.lit .VAST (.vInt 10)) := by
  refine ⟨?_, rfl, ?_, rfl⟩
  · intro t v bs hlo hhi henc
    have hb : StructType.BOOL.toInt = 16 := rfl
    have hl : StructType.LIT.toInt = 3 := rfl
    have hne : t ≠ .BSTR := by
      intro hcon
      subst hcon
      simp [StructType.toInt] at hhi
    refine ⟨((t.toInt - 16) * 16 + 3).toNat, ?_, by omega, by
      rw [hb]
      omega, ?_⟩
    · rw [encodeAriTop, encodeObj, if_neg hne]
      have hpack : packB ((t.toInt - StructType.BOOL.toInt) * 16 +
          StructType.LIT.toInt) = .ok [((t.toInt - 16) * 16 + 3).toNat] := by
        rw [hb, hl, packB, if_pos]
        omega
      simp [henc, hpack, Bind.bind, Except.bind]
    · have hflag3 : ((t.toInt - 16) * 16 + 3).toNat % 16 = 3 := by omega
      have hdec2 : cborDecodeValue bs = .ok (v, []) := by
        have := cborDecodeValue_encodeValue v bs [] henc
        simpa using this
      have harg : ((((t.toInt - 16) * 16 + 3).toNat / 16 : Nat) : Int) +
          StructType.BOOL.toInt = t.toInt := by
        rw [hb]
        omega
      have hlitLookup : StructType.ofInt? ((3 : Nat) : Int) = some .LIT := rfl
      rw [decodeAriTop]
      simp only [List.length_cons]
      rw [decodeAri]
      simp only [hflag3, hlitLookup, hdec2, harg, ofInt?_toInt, Except.map]
      simp
  · rw [encodeAriTop, encodeObj]
    norm_num [packB, StructType.toInt, cborEncodeValue, encodeHead,
      Bind.bind, Except.bind]
    simp

/-- Claim C1 witness: the amended round-trip at `VAST.10`. -/
theorem claim_C1_witness :
    ∃ flag, encodeAriTop (.lit .VAST (.vInt 10)) = .ok (flag :: [10]) ∧
      flag % 16 = 3 ∧
      ((flag / 16 : Nat) : Int) =
        StructType.VAST.toInt - StructType.BOOL.toInt ∧
      decodeAriTop (flag :: [10]) = .ok (.lit .VAST (.vInt 10)) :=
  claim_C1_literal_roundtrip.1 .VAST (.vInt 10) [10] (by decide) (by decide)
    (by rfl)

theorem textDecode_typedot_checkfail (s : String) (t dt : StructType)
    (v : Value) (tok : Token) (e : Err)
    (htok : tokenize s = .ok [.typedot t, tok])
    (hpl : parseLitvalue [tok] = .ok (.lit dt v, []))
    (hcheck : checkType t v = .error e) :
    textDecode s = .error (.parseError "Literal type mismatch") := by
  have hpt : parseTop [Token.typedot t, tok] =
      .error (.runtimeError "Literal type mismatch") := by
    have h1 : parseAri (4 * ([Token.typedot t, tok] : List Token).length + 4)
        [Token.typedot t, tok] = parseLiteral [Token.typedot t, tok] := rfl
    simp only [parseTop, Bind.bind, Except.bind, h1]
    rw [parseLiteral]
    simp only [hpl, Bind.bind, Except.bind, hcheck]
  simp only [textDecode, htok, hpt]

/-- Claim C6: when a literal carries a `TYPEDOT` prefix, the text
decoder validates the value with `check_type`; any out-of-range or
kind-mismatched value surfaces as a `ParseError`.  In particular
`BYTE.300` fails to decode because 300 exceeds the BYTE range. -/
theorem claim_C6_typedot_range_check :
    (∀ (s : String) (t : StructType) (v : Value) (tok : Token) (e : Err),
      valueToken v = some tok →
      tokenize s = .ok [.typedot t, tok] →
      checkType t v = .error e →
      textDecode s = .error (.parseError "Literal type mismatch")) ∧
    checkType .BYTE (.vInt 300) =
      .error (.valueError "Literal integer vaue outside of valid range") ∧
    textDecode "BYTE.300" = .error (.parseError "Literal type mismatch") := by
  refine ⟨?_, rfl, rfl⟩
  intro s t v tok e hvt htok hcheck
  cases v with
  | vNull => exact absurd hvt (by simp [valueToken])
  | vBool b =>
      simp [valueToken] at hvt
      subst hvt
      exact textDecode_typedot_checkfail s t .BOOL (.vBool b) _ e htok rfl
        hcheck
  | vInt n =>
      simp [valueToken] at hvt
      subst hvt
      exact textDecode_typedot_checkfail s t .VAST (.vInt n) _ e htok rfl
        hcheck
  | vStr str =>
      simp [valueToken] at hvt
      subst hvt
      exact textDecode_typedot_checkfail s t .STR (.vStr str) _ e htok rfl
        hcheck
  | vBytes bs =>
      simp [valueToken] at hvt
      subst hvt
      exact textDecode_typedot_checkfail s t .BSTR (.vBytes bs) _ e htok rfl
        hcheck

/-- Claim C6 witness: the general part applied at the concrete
`BYTE.300` input. -/
theorem claim_C6_witness :
    textDecode "BYTE.300" = .error (.parseError "Literal type mismatch") :=
  claim_C6_typedot_range_check.1 "BYTE.300" .BYTE (.vInt 300) (.tint 300)
    (.valueError "Literal integer vaue outside of valid range") rfl
    (by rfl) rfl

/-- Claim C3: the text codec separates absent from empty parameters:
`ident()` parses with `params = []`, bare `ident` with `params = None`,
and text encoding appends the parenthesized list exactly when `params`
is not `None`; the two concrete forms round-trip. -/
theorem claim_C3_params_none_vs_empty :
    (∀ (ts' : List Token) (id : Identity) (rest : List Token) (fuel : Nat),
      parseIdent (.slash :: ts') = .ok (id, .lparen :: .rparen :: rest) →
      parseSsp (fuel + 1) (.slash :: ts') = .ok (.ref id (some []), rest)) ∧
    (∀ (ts' : List Token) (id : Identity) (rest : List Token) (fuel : Nat),
      parseIdent (.slash :: ts') = .ok (id, rest) →
      rest.head? ≠ some .lparen →
      parseSsp (fuel + 1) (.slash :: ts') = .ok (.ref id none, rest)) ∧
    (∀ (id : Identity) (ps : List Obj) (out : String),
      textEncode (.ref id (some ps)) = .ok out →
      ∃ base inner, textEncode (.ref id none) = .ok base ∧
        out = base ++ "(" ++ inner ++ ")") ∧
    textDecode "ari:/namespace/VAR.hello()" =
      .ok (.ref ⟨some (.vStr "namespace"), .VAR, .vStr "hello", none, none⟩
        (some [])) ∧
    textEncode (.ref ⟨some (.vStr "namespace"), .VAR, .vStr "hello", none,
      none⟩ (some [])) = .ok "ari:/namespace/VAR.hello()" ∧
    textDecode "ari:/namespace/VAR.hello" =
      .ok (.ref ⟨some (.vStr "namespace"), .VAR, .vStr "hello", none, none⟩
        none) ∧
    textEncode (.ref ⟨some (.vStr "namespace"), .VAR, .vStr "hello", none,
      none⟩ none) = .ok "ari:/namespace/VAR.hello" := by
  refine ⟨?_, ?_, ?_, rfl, ?_, rfl, ?_⟩
  · intro ts' id rest fuel h
    rw [parseSsp]
    simp [h, Bind.bind, Except.bind]
  · intro ts' id rest fuel h hrest
    rw [parseSsp]
    simp only [h, Bind.bind, Except.bind]
    match rest with
    | [] => rfl
    | .lparen :: r2 => exact absurd rfl hrest
    | .rparen :: r2 => rfl
    | .slash :: r2 => rfl
    | .comma :: r2 => rfl
    | .lsqrb :: r2 => rfl
    | .rsqrb :: r2 => rfl
    | .ariScheme :: r2 => rfl
    | .typename t :: r2 => rfl
    | .typedot t :: r2 => rfl
    | .tbool b :: r2 => rfl
    | .tint n :: r2 => rfl
    | .tfloat f :: r2 => rfl
    | .name s :: r2 => rfl
    | .tstr s :: r2 => rfl
    | .bstr bs :: r2 => rfl
  · intro id ps out h
    rw [textEncode] at h
    cases hl : textEncodeList ps with
    | error e =>
        rw [hl] at h
        exact absurd h (by simp [Bind.bind, Except.bind])
    | ok body =>
        rw [hl] at h
        simp only [pure, Except.pure, Bind.bind, Except.bind,
          Except.ok.injEq] at h
        refine ⟨refBase id, body, ?_, ?_⟩
        · rw [textEncode]
          simp
        · rw [← h]
          simp [String.append_assoc]
  · rw [textEncode]
    rfl
  · rw [textEncode]
    rfl

/-- Claim C3 witness: the parser parts applied to the tokens of
`ari:/namespace/VAR.hello()` and `ari:/namespace/VAR.hello`, and the
encoder part applied to the empty-params reference. -/
theorem claim_C3_witness :
    parseSsp 1 (.slash :: [.name "namespace", .slash, .typedot .VAR,
      .name "hello", .lparen, .rparen]) =
      .ok (.ref ⟨some (.vStr "namespace"), .VAR, .vStr "hello", none, none⟩
        (some []), []) ∧
    parseSsp 1 (.slash :: [.name "namespace", .slash, .typedot .VAR,
      .name "hello"]) =
      .ok (.ref ⟨some (.vStr "namespace"), .VAR, .vStr "hello", none, none⟩
        none, []) ∧
    ∃ base inner,
      textEncode (.ref ⟨some (.vStr "namespace"), .VAR, .vStr "hello", none,
        none⟩ none) = .ok base ∧
      "ari:/namespace/VAR.hello()" = base ++ "(" ++ inner ++ ")" := by
  refine ⟨?_, ?_, ?_⟩
  · exact claim_C3_params_none_vs_empty.1 _ _ [] 0 rfl
  · exact claim_C3_params_none_vs_empty.2.1 _ _ [] 0 rfl (by simp)
  · exact claim_C3_params_none_vs_empty.2.2.1 _ [] _
      claim_C3_params_none_vs_empty.2.2.2.2.1

/-- Claim C2: for a reference with a textual `prefix:adm_name` namespace
whose ADM and child object both exist with enumerations, `TO_NN`
conversion replaces the namespace with `adm.enum * 20 + nick_kind` and
the name with the CBOR encoding of the child's enum, where `nick_kind`
comes from the fixed `AdmObjType` table CONST=0, CTRL=1, EDD=2, MAC=3,
OPER=4, RPTT=5, SBR=6, TBLT=7, TBR=8, VAR=9, MDAT=10. -/
theorem claim_C2_to_nn_rewrite (adms : List Adm) (must : Bool)
    (ident : Identity) (params : Option (List Obj)) (s admName : String)
    (adm : Adm) (child : AdmChild) (admEnum childEnum nnType : Int)
    (kind : OrmKind) (nb : List Nat)
    (hns : ident.nspace = some (.vStr s))
    (hsplit : (pySplit ':' s)[1]? = some admName)
    (hadm : getByNormName adms admName = .ok adm)
    (henum : adm.enum = some admEnum)
    (hty : admObjType? ident.type_enum = .ok nnType)
    (hkind : ormType? ident.type_enum = .ok kind)
    (hchild : getChild adm kind (some ident.name) none = .ok (some child))
    (hcenum : child.enum = some childEnum)
    (hnb : cborEncodeValue (.vInt childEnum) = .ok nb) :
    ((convertAri .TO_NN adms must ident params).1 =
      { ident with nspace := some (.vInt (admEnum * 20 + nnType)),
                   name := .vBytes nb }) ∧
    admObjType? .CONST = .ok 0 ∧ admObjType? .CTRL = .ok 1 ∧
    admObjType? .EDD = .ok 2 ∧ admObjType? .MAC = .ok 3 ∧
    admObjType? .OPER = .ok 4 ∧ admObjType? .RPTT = .ok 5 ∧
    admObjType? .SBR = .ok 6 ∧ admObjType? .TBLT = .ok 7 ∧
    admObjType? .TBR = .ok 8 ∧ admObjType? .VAR = .ok 9 ∧
    admObjType? .MDAT = .ok 10 := by
  refine ⟨?_, rfl, rfl, rfl, rfl, rfl, rfl, rfl, rfl, rfl, rfl, rfl⟩
  obtain ⟨nsp, te, nm, iss, tg⟩ := ident
  have h2 : nsp = some (.vStr s) := hns
  subst h2
  show (convertAriToNN adms must ⟨some (.vStr s), te, nm, iss, tg⟩
    params s).1 = _
  unfold convertAriToNN
  simp only [hsplit, hadm, hty, hkind, hchild, henum, hcenum, hnb]
  cases hps : child.parmspec with
  | none => rfl
  | some specs =>
      cases hrw : rewrapLoop specs 0 params with
      | mk ps2 e2 => simp [hrw]

/-- Claim C2 witness: the `amp_agent` (enum 20) catalog with RPTT child
`full_report` (enum 0); the namespace becomes `20 * 20 + 5 = 405` and
the name the CBOR byte `0x00`. -/
theorem claim_C2_witness :
    getByNormName
        [{ norm_name := "amp_agent", enum := some 20,
           rptt := [⟨"full_report", some 0, none⟩] }] "amp_agent" =
      .ok { norm_name := "amp_agent", enum := some 20,
            rptt := [⟨"full_report", some 0, none⟩] } ∧
    cborEncodeValue (.vInt 0) = .ok [0] ∧
    ((convertAri .TO_NN
        [{ norm_name := "amp_agent", enum := some 20,
           rptt := [⟨"full_report", some 0, none⟩] }] true
        ⟨some (.vStr "IANA:amp_agent"), .RPTT, .vStr "full_report", none,
          none⟩ (some [])).1 =
      ⟨some (.vInt (20 * 20 + 5)), .RPTT, .vBytes [0], none, none⟩) :=
  ⟨rfl, rfl,
    (claim_C2_to_nn_rewrite
      [{ norm_name := "amp_agent", enum := some 20,
         rptt := [⟨"full_report", some 0, none⟩] }] true
      ⟨some (.vStr "IANA:amp_agent"), .RPTT, .vStr "full_report", none,
        none⟩ (some []) "IANA:amp_agent" "amp_agent"
      { norm_name := "amp_agent", enum := some 20,
        rptt := [⟨"full_report", some 0, none⟩] }
      ⟨"full_report", some 0, none⟩ 20 0 5 .kRptt [0]
      rfl rfl rfl rfl rfl rfl rfl rfl rfl).1⟩

/-- `Converter._convert_ari` leaves a reference untouched when its
namespace is already in the target form of the mode (the dispatch falls
through to the no-op default arm). -/
theorem convertAri_target_id (mode : Mode) (adms : List Adm) (must : Bool)
    (ident : Identity) (params : Option (List Obj))
    (h : nsTarget mode ident.nspace = true) :
    convertAri mode adms must ident params = (ident, params, none) := by
  unfold convertAri
  cases mode with
  | TO_NN =>
      match hns : ident.nspace with
      | none => simp [nsTarget, hns] at h
      | some (.vInt n) => rfl
      | some (.vStr s) => simp [nsTarget, hns] at h
      | some .vNull => simp [nsTarget, hns] at h
      | some (.vBool b) => simp [nsTarget, hns] at h
      | some (.vBytes bs) => simp [nsTarget, hns] at h
  | FROM_NN =>
      match hns : ident.nspace with
      | none => simp [nsTarget, hns] at h
      | some (.vStr s) => rfl
      | some (.vInt n) => simp [nsTarget, hns] at h
      | some .vNull => simp [nsTarget, hns] at h
      | some (.vBool b) => simp [nsTarget, hns] at h
      | some (.vBytes bs) => simp [nsTarget, hns] at h

/-- Strong induction on the tree weight: `Converter.__call__` is the
identity (and raises nothing) on any tree already in target form. -/
theorem convert_target_aux : ∀ n : Nat,
    (∀ (mode : Mode) (adms : List Adm) (must : Bool) (o : Obj),
      objWeight o ≤ n → targetForm mode o = true →
      convertObj mode adms must o = (o, none)) ∧
    (∀ (mode : Mode) (adms : List Adm) (must : Bool) (l : List Obj),
      listWeight l ≤ n → targetFormList mode l = true →
      convertList mode adms must l = (l, none)) := by
  intro n
  induction n using Nat.strong_induction_on with
  | _ n ih =>
    constructor
    · intro mode adms must o hw ht
      match o with
      | .lit t v => rw [convertObj]
      | .ref ident params =>
          rw [targetForm.eq_def] at ht
          dsimp only at ht
          simp only [Bool.and_eq_true] at ht
          have ha := convertAri_target_id mode adms must ident params ht.1
          rw [convertObj]
          split
          · rename_i id1 l h
            rw [ha] at h
            injection h with h1 h23
            injection h23 with h2 h3
            subst h1
            subst h2
            dsimp only at ht
            by_cases hle : l.isEmpty
            · simp [hle]
            · have hwl : listWeight l < n := by
                simp only [objWeight] at hw
                omega
              have hl := (ih (listWeight l) hwl).2 mode adms must l
                le_rfl ht.2
              simp [hle, hl]
          · rename_i id1 ps1 e hno heq
            rw [ha] at heq
            injection heq with h1 h23
            injection h23 with h2 h3
            subst h1
            subst h2
            subst h3
            rfl
      | .ac items =>
          rw [targetForm.eq_def] at ht
          dsimp only at ht
          rw [convertObj]
          have hwl : listWeight items < n := by
            simp only [objWeight] at hw
            omega
          have hl := (ih (listWeight items) hwl).2 mode adms must items
            le_rfl ht
          simp [hl]
      | .expr t items =>
          rw [targetForm.eq_def] at ht
          dsimp only at ht
          rw [convertObj]
          have hwl : listWeight items < n := by
            simp only [objWeight] at hw
            omega
          have hl := (ih (listWeight items) hwl).2 mode adms must items
            le_rfl ht
          simp [hl]
      | .tnvc items =>
          rw [targetForm.eq_def] at ht
          dsimp only at ht
          rw [convertObj]
          have hwl : listWeight items < n := by
            simp only [objWeight] at hw
            omega
          have hl := (ih (listWeight items) hwl).2 mode adms must items
            le_rfl ht
          simp [hl]
    · intro mode adms must l hw ht
      match l with
      | [] => rw [convertList]
      | x :: xs =>
          rw [targetFormList.eq_def] at ht
          dsimp only at ht
          simp only [Bool.and_eq_true] at ht
          have hwx : objWeight x < n := by
            simp only [listWeight] at hw
            omega
          have hwxs : listWeight xs < n := by
            simp only [listWeight] at hw
            omega
          have hx := (ih (objWeight x) hwx).1 mode adms must x le_rfl ht.1
          have hxs := (ih (listWeight xs) hwxs).2 mode adms must xs
            le_rfl ht.2
          rw [convertList]
          simp [hx, hxs]

/-- Claim C5: the nickname converter is idempotent on trees already in
the target form: a `TO_NN` pass leaves a tree whose references all have
integer namespaces unchanged, and a `FROM_NN` pass leaves a tree whose
references all have textual namespaces unchanged (and neither raises). -/
theorem claim_C5_converter_idempotent (mode : Mode) (adms : List Adm)
    (must : Bool) (o : Obj) (h : targetForm mode o = true) :
    convertObj mode adms must o = (o, none) :=
  (convert_target_aux (objWeight o)).1 mode adms must o le_rfl h

/-- Claim C5 witness: one tree per mode, each with nested parameters and
collection items, mapped to itself by the matching converter over an
empty catalog and a singleton catalog alike. -/
theorem claim_C5_witness :
    (targetForm .TO_NN
      (.ac [.ref ⟨some (.vInt 405), .RPTT, .vBytes [0], none, none⟩
              (some [.lit .VAST (.vInt 3)]),
            .ref ⟨some (.vInt 21), .CTRL, .vBytes [1], none, none⟩ none])
      = true) ∧
    convertObj .TO_NN [] true
      (.ac [.ref ⟨some (.vInt 405), .RPTT, .vBytes [0], none, none⟩
              (some [.lit .VAST (.vInt 3)]),
            .ref ⟨some (.vInt 21), .CTRL, .vBytes [1], none, none⟩ none]) =
      (.ac [.ref ⟨some (.vInt 405), .RPTT, .vBytes [0], none, none⟩
              (some [.lit .VAST (.vInt 3)]),
            .ref ⟨some (.vInt 21), .CTRL, .vBytes [1], none, none⟩ none],
        none) ∧
    (targetForm .FROM_NN
      (.expr .VAST [.ref ⟨some (.vStr "IANA:amp_agent"), .EDD,
        .vStr "num_tbr", none, none⟩ (some [])]) = true) ∧
    convertObj .FROM_NN
      [{ norm_name := "amp_agent", enum := some 20,
         edd := [⟨"num_tbr", some 4, none⟩] }] false
      (.expr .VAST [.ref ⟨some (.vStr "IANA:amp_agent"), .EDD,
        .vStr "num_tbr", none, none⟩ (some [])]) =
      (.expr .VAST [.ref ⟨some (.vStr "IANA:amp_agent"), .EDD,
        .vStr "num_tbr", none, none⟩ (some [])], none) := by
  refine ⟨?_, ?_, ?_, ?_⟩
  · simp [targetForm, targetFormList, nsTarget]
  · exact claim_C5_converter_idempotent .TO_NN [] true _
      (by simp [targetForm, targetFormList, nsTarget])
  · simp [targetForm, targetFormList, nsTarget]
  · exact claim_C5_converter_idempotent .FROM_NN
      [{ norm_name := "amp_agent", enum := some 20,
         edd := [⟨"num_tbr", some 4, none⟩] }] false _
      (by simp [targetForm, targetFormList, nsTarget])

end ACE
